import Mathlib

/-!
# Forward renderer (`scene-editor/fwd_renderer.hpp`)

A shallow embedding of `PhysicallyBasedRenderer<NumEyes>`: the draw-order policy of
`run_forward_pass`, the per-scene block assembled by `render_frame`, the shadow camera,
the sequence of device and collaborator calls made by one frame, and `add_camera`.

Conventions of the embedding.

* `float` is the type of the IEEE 754 binary32 values; its comparison, and the addition and
  multiplication with their rounding to nearest, ties to even, are defined on it. The two
  zeros, which compare equal, are not told apart.
* Pointers to drawables, materials and lights are modelled by the values they point to, read
  at the time the renderer dereferences them; a nullable pointer is an `Option`.
* Functions of the linear-algebra headers (`linalg.h`, `linalg_util.hpp`,
  `projection-math.hpp`), which the renderer only calls, are the fields of a parameter
  `Linalg`; among them is `distance`, whose result is a `float`.
* Every call that reaches the device or a collaborator is recorded, in program order, as a
  `Call`; a function that issues calls returns the list of the calls it made.
-/

namespace FwdRenderer

/-! ## The type `float` -/

/-- The values of the type `float` (IEEE 754 binary32): a finite value, given by the rational
number it denotes, an infinity with its sign, or a NaN. The two zeros compare equal and are
both the finite value 0. The finite values of binary32 are the `finite q` with
`representable q`; the operations below return only such values, and what is proved for every
`finite q` holds for them. -/
inductive float where
  | finite (q : ℚ)
  | inf (negative : Bool)
  | nan
deriving DecidableEq, Repr

/-- A numeral denotes the finite value of that number. -/
instance (n : Nat) : OfNat float n := ⟨float.finite n⟩

namespace float

/-- The power `2^e` for an integer exponent. -/
def pow2 (e : Int) : ℚ :=
  if 0 ≤ e then ((2 ^ e.toNat : Nat) : ℚ) else 1 / ((2 ^ (-e).toNat : Nat) : ℚ)

/-- The number of halvings that bring `n` below 2, in at most `fuel` steps. -/
def log2Aux : Nat → Nat → Nat
  | 0, _ => 0
  | fuel + 1, n => if n < 2 then 0 else log2Aux fuel (n / 2) + 1

/-- The integer part of the binary logarithm of a natural number (0 for 0). -/
def log2 (n : Nat) : Nat := log2Aux n n

/-- The integer part of the binary logarithm of a positive rational: the `e` with
`2^e ≤ a < 2^(e+1)`. -/
def ilog2 (a : ℚ) : Int :=
  let e0 : Int := (log2 a.num.natAbs : Int) - (log2 a.den : Int)
  if pow2 e0 ≤ a then e0 else e0 - 1

/-- The integer nearest to `x`, the even one of the two when `x` lies half-way. -/
def roundHalfEven (x : ℚ) : Int :=
  let f := Rat.floor x
  let r := x - f
  if r < 1 / 2 then f
  else if 1 / 2 < r then f + 1
  else if f % 2 = 0 then f
  else f + 1

/-- The binary32 value of an exact result `q`, by rounding to nearest, ties to even: the
significand has 24 bits, the least exponent of a normal value is -126 (below it the spacing of
the subnormal values, `2^-149`, is kept), and a rounded magnitude of `2^128` or more is an
infinity. -/
def round (q : ℚ) : float :=
  if q = 0 then finite 0
  else
    let a := if q < 0 then -q else q
    let e := max (ilog2 a) (-126)
    let quantum := pow2 (e - 23)
    let v := (roundHalfEven (a / quantum) : ℚ) * quantum
    if pow2 128 ≤ v then inf (decide (q < 0))
    else finite (if q < 0 then -v else v)

/-- Whether the rational `q` is a finite `float` value: rounding leaves it unchanged. -/
def representable (q : ℚ) : Bool := decide (round q = finite q)

/-- Whether the value is a NaN. -/
def isNaN : float → Bool
  | nan => true
  | _ => false

/-- The comparison `a < b` of two `float` values: false when either is a NaN. -/
def lt : float → float → Bool
  | finite a, finite b => decide (a < b)
  | finite _, inf negative => !negative
  | inf negative, finite _ => negative
  | inf a, inf b => a && !b
  | _, _ => false

/-- The negation `-a`. -/
def neg : float → float
  | finite a => finite (-a)
  | inf negative => inf (!negative)
  | nan => nan

/-- The sum `a + b` of two `float` values. -/
def add : float → float → float
  | finite a, finite b => round (a + b)
  | finite _, inf negative => inf negative
  | inf negative, finite _ => inf negative
  | inf a, inf b => if a = b then inf a else nan
  | _, _ => nan

/-- The difference `a - b` of two `float` values. -/
def sub (a b : float) : float := add a (neg b)

/-- The product `a * b` of two `float` values. -/
def mul : float → float → float
  | finite a, finite b => round (a * b)
  | finite a, inf negative => if a = 0 then nan else inf (negative != decide (a < 0))
  | inf negative, finite b => if b = 0 then nan else inf (negative != decide (b < 0))
  | inf a, inf b => inf (a != b)
  | _, _ => nan

/-- The integer square root, bit by bit from the bit `2^(bits-1)` down. -/
def isqrtAux (n : Nat) : Nat → Nat → Nat
  | 0, res => res
  | b + 1, res => isqrtAux n b (if (res + 2 ^ b) * (res + 2 ^ b) ≤ n then res + 2 ^ b else res)

/-- The integer part of the square root of a natural number. -/
def isqrt (n : Nat) : Nat := isqrtAux n (log2 n / 2 + 1) 0

/-- The square root of a `float` value, rounded to nearest, ties to even. -/
def sqrt : float → float
  | nan => nan
  | inf negative => if negative then nan else inf false
  | finite q =>
    if q < 0 then nan
    else if q = 0 then finite 0
    else
      let e := max (ilog2 q / 2) (-126)
      let quantum := pow2 (e - 23)
      let t := q / (quantum * quantum)
      let n0 := isqrt (Rat.floor t).toNat
      let mid := ((n0 : ℚ) + 1 / 2) * ((n0 : ℚ) + 1 / 2)
      let n := if t < mid then n0 else if mid < t then n0 + 1 else if n0 % 2 = 0 then n0 else n0 + 1
      finite ((n : ℚ) * quantum)

end float

/-! ## Data model -/

/-- The vector type `float2` (render size). -/
structure float2 where
  x : float
  y : float
deriving DecidableEq, Repr

/-- The vector type `float3`. -/
structure float3 where
  x : float
  y : float
  z : float
deriving DecidableEq, Repr

/-- The vector type `float4` (also used for orientation quaternions). -/
structure float4 where
  x : float
  y : float
  z : float
  w : float
deriving DecidableEq, Repr

/-- The matrix type `float4x4`, stored as four columns. -/
structure float4x4 where
  x : float4
  y : float4
  z : float4
  w : float4
deriving DecidableEq, Repr

/-- The value of a zero-initialised `float3` (`= {}`). -/
def float3.zero : float3 := ⟨0, 0, 0⟩

/-- The value of a zero-initialised `float4` (`= {}`). -/
def float4.zero : float4 := ⟨0, 0, 0, 0⟩

/-- The value of a zero-initialised `float4x4` (`= {}`). -/
def float4x4.zero : float4x4 := ⟨float4.zero, float4.zero, float4.zero, float4.zero⟩

/-- Modelled from the spec: the operator `a + b` on `float3` of `linalg.h`, a header that is
not among the sources: the `float` sum of each pair of components. -/
def float3.add (a b : float3) : float3 :=
  ⟨float.add a.x b.x, float.add a.y b.y, float.add a.z b.z⟩

/-- Modelled from the spec: the operator `a * s` of a `float3` by a scalar of `linalg.h`: the
`float` product of each component with `s`. -/
def float3.mul (a : float3) (s : float) : float3 :=
  ⟨float.mul a.x s, float.mul a.y s, float.mul a.z s⟩

/-- A rigid pose `Pose`: orientation quaternion and position. -/
structure Pose where
  orientation : float4
  position : float3
deriving DecidableEq, Repr

/-- What the renderer uses of a `Material`: its `id()` and whether the
`dynamic_cast<MetallicRoughnessMaterial*>` succeeds. -/
structure Material where
  id : Nat
  isMetallicRoughness : Bool
deriving DecidableEq, Repr

/-- What the renderer reads of a `Renderable`: `get_pose()`, `get_scale()`, `get_material()`
(`none` is the null pointer), `get_cast_shadow()`, `get_receive_shadow()`. -/
structure Renderable where
  pose : Pose
  scale : float3
  material : Option Material
  castsShadow : Bool
  receiveShadow : Bool
deriving DecidableEq, Repr

/-- The record `CameraData`. -/
structure CameraData where
  index : Nat
  pose : Pose
  viewMatrix : float4x4
  projectionMatrix : float4x4
  viewProjMatrix : float4x4
deriving DecidableEq, Repr

/-- The functions of the linear-algebra headers that the renderer calls. -/
structure Linalg where
  /-- Matrix product `mul(a, b)`. -/
  mul : float4x4 → float4x4 → float4x4
  /-- Matrix `inverse(m)`. -/
  inverse : float4x4 → float4x4
  /-- Matrix `transpose(m)`. -/
  transpose : float4x4 → float4x4
  /-- The member `Pose::matrix()`. -/
  matrix : Pose → float4x4
  /-- The member `Pose::inverse()`. -/
  poseInverse : Pose → Pose
  /-- The function `make_scaling_matrix(scale)`. -/
  make_scaling_matrix : float3 → float4x4
  /-- The function `make_view_matrix_from_pose(pose)`. -/
  make_view_matrix_from_pose : Pose → float4x4
  /-- The function `near_far_clip_from_projection(projection)`. -/
  near_far_clip_from_projection : float4x4 → float2
  /-- The function `aspect_from_projection(projection)`. -/
  aspect_from_projection : float4x4 → float
  /-- The function `vfov_from_projection(projection)`. -/
  vfov_from_projection : float4x4 → float
  /-- The function `distance(a, b)` of two points, with its `float` result. -/
  distance : float3 → float3 → float
  /-- The operator `s / v` of a scalar by a `float2`. -/
  div : float → float2 → float2

/-! ## `std::priority_queue` -/

namespace priority_queue

variable {α : Type}

/-- The member `push`: the element joins the container. -/
def push (q : List α) (x : α) : List α := q ++ [x]

/-- One scan of the container for a greatest element under `comp` (`comp a b` reads
"`a` is ordered before `b`"): `best` is the greatest element seen so far, and the result is
the greatest element together with all the others. -/
def takeTop (comp : α → α → Bool) : α → List α → α × List α
  | best, [] => (best, [])
  | best, y :: ys =>
    if comp best y then ((takeTop comp y ys).1, best :: (takeTop comp y ys).2)
    else ((takeTop comp best ys).1, y :: (takeTop comp best ys).2)

/-- The member `top`: an element of the container that `comp` orders before no other
element. `std::priority_queue<T, std::vector<T>, Compare>` is a max-heap with respect to
`Compare`; the C++ standard fixes this contract and leaves open which of several equivalent
greatest elements is returned. The model returns the first greatest element in push order. -/
def top (comp : α → α → Bool) : List α → Option α
  | [] => none
  | x :: xs => some (takeTop comp x xs).1

/-- The member `pop`: removes the element returned by `top`. -/
def pop (comp : α → α → Bool) : List α → List α
  | [] => []
  | x :: xs => (takeTop comp x xs).2

/-- The loop `while (!q.empty()) { top = q.top(); q.pop(); ... }`: the elements in the order
in which the loop visits them, for at most `fuel` iterations. -/
def drainFuel (comp : α → α → Bool) : Nat → List α → List α
  | 0, _ => []
  | fuel + 1, q =>
    match top comp q with
    | none => []
    | some t => t :: drainFuel comp fuel (pop comp q)

/-- The visiting order of the drain loop; every iteration removes one element, so as many
iterations as there are elements empty the queue. -/
def drain (comp : α → α → Bool) (q : List α) : List α := drainFuel comp q.length q

/-- The requirements of the standard on a comparator, in the form used here and for the
elements that satisfy `P`: it is asymmetric, and "not ordered before" is transitive. -/
structure StrictWeak (comp : α → α → Bool) (P : α → Prop) : Prop where
  asymm : ∀ a b, P a → P b → comp a b = true → comp b a = false
  negTrans : ∀ a b c, P a → P b → P c → comp a b = false → comp b c = false →
    comp a c = false

end priority_queue

/-! ## Draw order of `run_forward_pass` -/

/-- A drawable whose `get_material()` is not null: the element type of `renderQueueMaterial`,
which is only ever pushed to under the guard `obj->get_material() != nullptr`. -/
abbrev MaterialRenderable := { obj : Renderable // obj.material.isSome = true }

/-- The material `top->get_material()` of an element of the material queue. -/
def MaterialRenderable.get_material (r : MaterialRenderable) : Material :=
  r.val.material.get r.property

/-- The comparator `materialSortFunc` of `run_forward_pass`. -/
def materialSortFunc (L : Linalg) (d : CameraData) (lhs rhs : MaterialRenderable) : Bool :=
  let cameraWorldspace := d.pose.position
  let lDist := L.distance cameraWorldspace lhs.val.pose.position
  let rDist := L.distance cameraWorldspace rhs.val.pose.position
  let lid := lhs.get_material.id
  let rid := rhs.get_material.id
  if lid ≠ rid then decide (lid > rid)
  else float.lt lDist rDist

/-- The comparator `distanceSortFunc` of `run_forward_pass`. -/
def distanceSortFunc (L : Linalg) (d : CameraData) (lhs rhs : Renderable) : Bool :=
  let cameraWorldspace := d.pose.position
  let lDist := L.distance cameraWorldspace lhs.pose.position
  let rDist := L.distance cameraWorldspace rhs.pose.position
  float.lt lDist rDist

/-- One iteration of the bucketing loop of `run_forward_pass`: `obj` is pushed to
`renderQueueMaterial` when it has a material and to `renderQueueDefault` otherwise. -/
def bucketStep (q : List MaterialRenderable × List Renderable) (obj : Renderable) :
    List MaterialRenderable × List Renderable :=
  if h : obj.material.isSome = true then (priority_queue.push q.1 ⟨obj, h⟩, q.2)
  else (q.1, priority_queue.push q.2 obj)

/-- The loop `for (auto obj : renderSet) ...` that fills the two queues, both empty at start. -/
def bucket (renderSet : List Renderable) : List MaterialRenderable × List Renderable :=
  renderSet.foldl bucketStep ([], [])

/-- The order in which the first `while` loop of `run_forward_pass` visits the drawables
that have a material. -/
def materialTraversal (L : Linalg) (d : CameraData) (renderSet : List Renderable) :
    List MaterialRenderable :=
  priority_queue.drain (materialSortFunc L d) (bucket renderSet).1

/-- The order in which the second `while` loop of `run_forward_pass` visits the drawables
that have no material. -/
def defaultTraversal (L : Linalg) (d : CameraData) (renderSet : List Renderable) :
    List Renderable :=
  priority_queue.drain (distanceSortFunc L d) (bucket renderSet).2

/-! ## Device state and recorded calls -/

/-- The capabilities the renderer toggles with `glEnable` / `glDisable` and queries with
`glIsEnabled`. -/
inductive Cap where
  | GL_CULL_FACE
  | GL_DEPTH_TEST
  | GL_FRAMEBUFFER_SRGB
  | GL_MULTISAMPLE
deriving DecidableEq, Repr

/-- The enable flags of the device, one per capability. -/
structure GlState where
  cullFace : Bool
  depthTest : Bool
  framebufferSrgb : Bool
  multisample : Bool
deriving DecidableEq, Repr

/-- The query `glIsEnabled(cap)`. -/
def GlState.isEnabled (gl : GlState) : Cap → Bool
  | .GL_CULL_FACE => gl.cullFace
  | .GL_DEPTH_TEST => gl.depthTest
  | .GL_FRAMEBUFFER_SRGB => gl.framebufferSrgb
  | .GL_MULTISAMPLE => gl.multisample

/-- The effect of `glEnable(cap)` (`v = true`) and `glDisable(cap)` (`v = false`) on the
flags. -/
def GlState.setEnabled (gl : GlState) (cap : Cap) (v : Bool) : GlState :=
  match cap with
  | .GL_CULL_FACE => { gl with cullFace := v }
  | .GL_DEPTH_TEST => { gl with depthTest := v }
  | .GL_FRAMEBUFFER_SRGB => { gl with framebufferSrgb := v }
  | .GL_MULTISAMPLE => { gl with multisample := v }

/-- The depth comparison functions passed to `glDepthFunc`. -/
inductive DepthFunc where
  | GL_LESS
  | GL_LEQUAL
deriving DecidableEq, Repr

/-- The three uniform buffers `perScene`, `perView`, `perObject`. -/
inductive Block where
  | per_scene
  | per_view
  | per_object
deriving DecidableEq, Repr

/-- The four GPU timers of the renderer. -/
inductive GpuTimer where
  | earlyZTimer
  | forwardTimer
  | shadowTimer
  | postTimer
deriving DecidableEq, Repr

/-- Modelled from the spec: the record `uniforms::point_light` of `uniforms.hpp`, a header
that is not among the sources; the renderer only copies and zero-initialises it. -/
structure point_light where
  color : float3
  position : float3
  radius : float
deriving DecidableEq, Repr

/-- The value of a zero-initialised `uniforms::point_light`. -/
def point_light.zero : point_light := ⟨float3.zero, float3.zero, 0⟩

/-- The record `uniforms::directional_light`, with the three fields `render_frame` copies. -/
structure directional_light where
  color : float3
  direction : float3
  amount : float
deriving DecidableEq, Repr

/-- The value of a zero-initialised `uniforms::directional_light`. -/
def directional_light.zero : directional_light := ⟨float3.zero, float3.zero, 0⟩

/-- The two constants of `uniforms.hpp` that `render_frame` uses. -/
structure Constants where
  MAX_POINT_LIGHTS : Nat
  NUM_CASCADES : Nat
deriving DecidableEq, Repr

/-- The block `uniforms::per_scene`, with the fields `render_frame` assigns. The arrays
`point_lights` (of `MAX_POINT_LIGHTS` entries) and `cascades...` (of `NUM_CASCADES` entries)
are lists of that length. `activePointLights` is assigned a `size_t`; it is a natural number
here, without the narrowing of the conversion. -/
structure per_scene where
  time : float
  resolution : float2
  invResolution : float2
  activePointLights : Nat
  directional_light : directional_light
  point_lights : List point_light
  cascadesPlane : List float4
  cascadesMatrix : List float4x4
  cascadesNear : List float
  cascadesFar : List float
deriving DecidableEq, Repr

/-- The zero-initialised block `uniforms::per_scene b = {}`. -/
def per_scene.zero (K : Constants) : per_scene :=
  { time := 0
    resolution := ⟨0, 0⟩
    invResolution := ⟨0, 0⟩
    activePointLights := 0
    directional_light := directional_light.zero
    point_lights := List.replicate K.MAX_POINT_LIGHTS point_light.zero
    cascadesPlane := List.replicate K.NUM_CASCADES float4.zero
    cascadesMatrix := List.replicate K.NUM_CASCADES float4x4.zero
    cascadesNear := List.replicate K.NUM_CASCADES 0
    cascadesFar := List.replicate K.NUM_CASCADES 0 }

/-- The block `uniforms::per_view`. -/
structure per_view where
  view : float4x4
  viewProj : float4x4
  eyePos : float4
deriving DecidableEq, Repr

/-- The block `uniforms::per_object`; `receiveShadow` is the flag converted to `float`. -/
structure per_object where
  modelMatrix : float4x4
  modelMatrixIT : float4x4
  modelViewMatrix : float4x4
  receiveShadow : float
deriving DecidableEq, Repr

/-- One call made by the renderer to the device or to a collaborator. -/
inductive Call where
  /-- The device call `glEnable(cap)`. -/
  | glEnable (cap : Cap)
  /-- The device call `glDisable(cap)`. -/
  | glDisable (cap : Cap)
  /-- The device call `glDepthFunc(f)`. -/
  | glDepthFunc (f : DepthFunc)
  /-- The device call `glColorMask(r, g, b, a)`. -/
  | glColorMask (r g b a : Bool)
  /-- The device call `glDepthMask(flag)`. -/
  | glDepthMask (flag : Bool)
  /-- The device call `glBindBufferBase(GL_UNIFORM_BUFFER, binding, buffer)`. -/
  | glBindBufferBase (block : Block)
  /-- The upload `perScene.set_buffer_data(sizeof(b), &b, GL_STREAM_DRAW)`. -/
  | set_per_scene (b : per_scene)
  /-- The upload `perView.set_buffer_data(sizeof(v), &v, GL_STREAM_DRAW)`. -/
  | set_per_view (v : per_view)
  /-- The upload `perObject.set_buffer_data(sizeof(object), &object, GL_STREAM_DRAW)`. -/
  | set_per_object (object : per_object)
  /-- The member `start()` of a GPU timer. -/
  | timer_start (t : GpuTimer)
  /-- The member `stop()` of a GPU timer. -/
  | timer_stop (t : GpuTimer)
  /-- The collaborator call `shadow->update_cascades(view, near, far, aspect, vfov, dir)`. -/
  | shadow_update_cascades (view : float4x4) (near far aspect vfov : float) (dir : float3)
  /-- The collaborator call `shadow->pre_draw()`. -/
  | shadow_pre_draw
  /-- The collaborator call `shadow->post_draw()`. -/
  | shadow_post_draw
  /-- The call `shadow->program.get().uniform("u_modelShadowMatrix", modelMatrix)`. -/
  | shadow_uniform_modelShadowMatrix (modelMatrix : float4x4)
  /-- The call `mat->update_uniforms()`. -/
  | material_update_uniforms (mat : Material)
  /-- The call `mr->update_cascaded_shadow_array_handle(shadow->get_output_texture())`. -/
  | update_cascaded_shadow_array_handle (mat : Material)
  /-- The call `mat->use()`. -/
  | material_use (mat : Material)
  /-- The call `obj->draw()`. -/
  | draw (obj : Renderable)
  /-- The device call `glBindFramebuffer(GL_DRAW_FRAMEBUFFER, multisampleFramebuffer)`. -/
  | glBindFramebuffer_multisample
  /-- The device call `glViewport(0, 0, w, h)`. -/
  | glViewport (w h : float)
  /-- The device call `glClearNamedFramebufferfv(multisampleFramebuffer, GL_COLOR, ...)`. -/
  | glClearNamedFramebufferfv_color
  /-- The device call `glClearNamedFramebufferfv(multisampleFramebuffer, GL_DEPTH, ...)`. -/
  | glClearNamedFramebufferfv_depth
  /-- The device call `glClear(GL_COLOR_BUFFER_BIT | GL_DEPTH_BUFFER_BIT)`. -/
  | glClear
  /-- The collaborator call `skybox->render(viewProj, eye, farClip)`. -/
  | skybox_render (viewProj : float4x4) (eye : float3) (farClip : float)
  /-- The multisample resolve: the blit of `multisampleFramebuffer` into
  `eyeFramebuffers[eyeIdx]`. -/
  | resolve (eyeIdx : Nat)
  /-- The collaborator call `bloom->execute(eyeTextures[index])`. -/
  | bloom_execute (index : Nat)
  /-- The blit of `bloom->get_output_texture()` over `eyeTextures[index]`. -/
  | bloom_blit (index : Nat)
  /-- The diagnostic `gl_check_error(__FILE__, __LINE__)`. -/
  | gl_check_error
deriving DecidableEq, Repr

/-- A piece of renderer code acting on a state `σ`: it returns the state it leaves and the
calls it made, in order. -/
abbrev Op (σ : Type) := σ → σ × List Call

namespace Op

variable {σ : Type}

/-- The empty statement. -/
def nop : Op σ := fun s => (s, [])

/-- A single recorded call that does not change the state. -/
def call (c : Call) : Op σ := fun s => (s, [c])

/-- Sequential composition `a; b`. -/
def andThen (a b : Op σ) : Op σ := fun s => (((b (a s).1).1), (a s).2 ++ (b (a s).1).2)

/-- A block of statements executed in order. -/
def seq : List (Op σ) → Op σ
  | [] => nop
  | a :: rest => andThen a (seq rest)

end Op

/-- A piece of renderer code that acts on the device flags only. -/
abbrev GlOp := Op GlState

/-- The device call `glEnable(cap)`: sets the flag and is recorded. -/
def glEnable (cap : Cap) : GlOp := fun gl => (gl.setEnabled cap true, [Call.glEnable cap])

/-- The device call `glDisable(cap)`: clears the flag and is recorded. -/
def glDisable (cap : Cap) : GlOp := fun gl => (gl.setEnabled cap false, [Call.glDisable cap])

/-! ## The renderer -/

/-- What the renderer uses of a `ProceduralSky`: `get_sun_direction()`. -/
structure ProceduralSky where
  sun_direction : float3
deriving DecidableEq, Repr

/-- What the renderer reads of the collaborator `StableCascadedShadowPass`: the flag `enabled`
and the per-cascade arrays, given by index. -/
structure StableCascadedShadowPass where
  enabled : Bool
  splitPlanes : Nat → float2
  shadowMatrices : Nat → float4x4
  nearPlanes : Nat → float
  farPlanes : Nat → float

/-- The collaborator code that changes state the renderer reads afterwards. The other
collaborator calls (`pre_draw`, `post_draw`, `draw`, the skybox and bloom passes) are recorded
as calls and taken to leave the four device flags of `GlState` as they find them. -/
structure Collaborators where
  /-- The member `StableCascadedShadowPass::update_cascades(view, near, far, aspect, vfov,
  lightDir)`: the shadow pass after the call. -/
  update_cascades : StableCascadedShadowPass → float4x4 → float → float → float → float →
    float3 →
    StableCascadedShadowPass

/-- The members of `PhysicallyBasedRenderer<NumEyes>` that the frame reads or writes. The
field `numEyes_ge_one` is the constructor's `assert(NumEyes >= 1)`. An output handle is
`none` until a frame has assigned it and `some i` when it holds the handle of the texture of
eye `i`. -/
structure PhysicallyBasedRenderer (NumEyes : Nat) where
  numEyes_ge_one : 1 ≤ NumEyes
  renderSizePerEye : float2
  cameras : Fin NumEyes → CameraData
  outputTextureHandles : Fin NumEyes → Option (Fin NumEyes)
  outputDepthTextureHandles : Fin NumEyes → Option (Fin NumEyes)
  renderSet : List Renderable
  pointLights : List point_light
  sunlight : directional_light
  skybox : Option ProceduralSky
  shadow : StableCascadedShadowPass

variable {NumEyes : Nat}

/-- The method `run_skybox_pass`. -/
def run_skybox_pass (L : Linalg) (skybox : Option ProceduralSky) (d : CameraData) : GlOp :=
  fun gl =>
    match skybox with
    | none => (gl, [])
    | some _ =>
      let wasDepthTestingEnabled := gl.isEnabled .GL_DEPTH_TEST
      Op.seq
        [ glDisable .GL_DEPTH_TEST,
          Op.call (.skybox_render d.viewProjMatrix d.pose.position
            (L.near_far_clip_from_projection d.projectionMatrix).y),
          if wasDepthTestingEnabled then glEnable .GL_DEPTH_TEST else Op.nop ] gl

/-- The body of the loop of `run_shadow_pass` for one drawable. -/
def shadow_draw (L : Linalg) (obj : Renderable) : List Call :=
  if obj.castsShadow then
    let modelMatrix := L.mul (L.matrix obj.pose) (L.make_scaling_matrix obj.scale)
    [Call.shadow_uniform_modelShadowMatrix modelMatrix, Call.draw obj]
  else []

/-- The method `run_shadow_pass`: the shadow collaborator after `update_cascades`, and the
calls made. -/
def run_shadow_pass (L : Linalg) (C : Collaborators) (r : PhysicallyBasedRenderer NumEyes)
    (d : CameraData) : StableCascadedShadowPass × List Call :=
  let nearFarClip := L.near_far_clip_from_projection d.projectionMatrix
  let view := L.make_view_matrix_from_pose d.pose
  let aspect := L.aspect_from_projection d.projectionMatrix
  let vfov := L.vfov_from_projection d.projectionMatrix
  (C.update_cascades r.shadow view nearFarClip.x nearFarClip.y aspect vfov r.sunlight.direction,
    [Call.shadow_update_cascades view nearFarClip.x nearFarClip.y aspect vfov
        r.sunlight.direction,
      Call.shadow_pre_draw, Call.gl_check_error]
    ++ (r.renderSet.map (shadow_draw L)).flatten
    ++ [Call.shadow_post_draw, Call.gl_check_error])

/-- The block computed by the lambda `update_per_object` for the drawable `top`. -/
def per_object_of (L : Linalg) (d : CameraData) (top : Renderable) : per_object :=
  let modelMatrix := L.mul (L.matrix top.pose) (L.make_scaling_matrix top.scale)
  { modelMatrix := modelMatrix
    modelMatrixIT := L.inverse (L.transpose modelMatrix)
    modelViewMatrix := L.mul d.viewMatrix modelMatrix
    receiveShadow := if top.receiveShadow then 1 else 0 }

/-- The lambda `update_per_object`: computes the block and uploads it. -/
def update_per_object (L : Linalg) (d : CameraData) (top : Renderable) : GlOp :=
  Op.call (.set_per_object (per_object_of L d top))

/-- The body of the first `while` loop of `run_forward_pass`, for the popped element. -/
def draw_with_material (L : Linalg) (d : CameraData) (top : MaterialRenderable) : GlOp :=
  let mat := top.get_material
  Op.seq
    [ update_per_object L d top.val,
      Op.call (.material_update_uniforms mat),
      if mat.isMetallicRoughness then Op.call (.update_cascaded_shadow_array_handle mat)
      else Op.nop,
      Op.call (.material_use mat),
      Op.call (.draw top.val) ]

/-- The body of the second `while` loop of `run_forward_pass`, for the popped element. -/
def draw_default (L : Linalg) (d : CameraData) (top : Renderable) : GlOp :=
  Op.seq [update_per_object L d top, Op.call (.draw top)]

/-- The method `run_forward_pass`. The two `while` loops do not touch their queue apart from
`top` and `pop`, so each runs its body over the visiting order of the queue. -/
def run_forward_pass (L : Linalg) (renderSet : List Renderable) (d : CameraData) : GlOp :=
  Op.seq
    [ glEnable .GL_DEPTH_TEST,
      Op.call (.glDepthFunc .GL_LEQUAL),
      Op.call (.glColorMask true true true true),
      Op.call (.glDepthMask false),
      Op.seq ((materialTraversal L d renderSet).map (draw_with_material L d)),
      Op.seq ((defaultTraversal L d renderSet).map (draw_default L d)),
      Op.call .gl_check_error ]

/-- The method `run_bloom_pass`. -/
def run_bloom_pass (d : CameraData) : GlOp :=
  Op.seq [Op.call (.bloom_execute d.index), Op.call (.bloom_blit d.index),
    Op.call .gl_check_error]

/-- The method `run_post_pass`. -/
def run_post_pass (d : CameraData) : GlOp :=
  fun gl =>
    let wasCullingEnabled := gl.isEnabled .GL_CULL_FACE
    let wasDepthTestingEnabled := gl.isEnabled .GL_DEPTH_TEST
    Op.seq
      [ glDisable .GL_CULL_FACE,
        glDisable .GL_DEPTH_TEST,
        run_bloom_pass d,
        if wasCullingEnabled then glEnable .GL_CULL_FACE else Op.nop,
        if wasDepthTestingEnabled then glEnable .GL_DEPTH_TEST else Op.nop ] gl

/-- A counting loop `for (int i = 0; i < n; ++i) body(i)` over a state `σ`. -/
def forLoop {σ : Type} (n : Nat) (body : Nat → σ → σ) (init : σ) : σ :=
  (List.range n).foldl (fun s i => body i s) init

/-- The first part of `render_frame`: the per-scene block `b` as it stands before the shadow
pass, when `timer.milliseconds().count()` reads `time`. In the copy loop `pointLights[i]` is
only read for `i < pointLights.size()`. -/
def assemble_per_scene (L : Linalg) (K : Constants) (time : float)
    (r : PhysicallyBasedRenderer NumEyes) : per_scene :=
  let b := per_scene.zero K
  let b := { b with time := time }
  let b := { b with resolution := r.renderSizePerEye }
  let b := { b with invResolution := L.div 1 b.resolution }
  let b := { b with activePointLights := r.pointLights.length }
  let b := { b with directional_light :=
    { color := r.sunlight.color, direction := r.sunlight.direction, amount := r.sunlight.amount } }
  forLoop (min r.pointLights.length K.MAX_POINT_LIGHTS)
    (fun i b => { b with point_lights := b.point_lights.set i (r.pointLights.getD i point_light.zero) })
    b

/-- The camera `shadowCamera` that `render_frame` hands to `run_shadow_pass`. -/
def shadowCamera (L : Linalg) (r : PhysicallyBasedRenderer NumEyes) : CameraData :=
  let shadowCamera := r.cameras ⟨0, r.numEyes_ge_one⟩
  if h : NumEyes = 2 then
    let centerPosition :=
      ((r.cameras ⟨0, by omega⟩).pose.position.add (r.cameras ⟨1, by omega⟩).pose.position).mul
        (float.finite (1 / 2))
    let shadowCamera := { shadowCamera with pose := { shadowCamera.pose with position := centerPosition } }
    let shadowCamera := { shadowCamera with viewMatrix := L.make_view_matrix_from_pose shadowCamera.pose }
    { shadowCamera with viewProjMatrix := L.mul shadowCamera.projectionMatrix shadowCamera.viewMatrix }
  else shadowCamera

/-- The loop of `render_frame` that copies the cascade data of the shadow collaborator into
the per-scene block. -/
def copy_cascades (K : Constants) (shadow : StableCascadedShadowPass) (b : per_scene) : per_scene :=
  forLoop K.NUM_CASCADES
    (fun c b =>
      { b with
        cascadesPlane := b.cascadesPlane.set c ⟨(shadow.splitPlanes c).x, (shadow.splitPlanes c).y, 0, 0⟩
        cascadesMatrix := b.cascadesMatrix.set c (shadow.shadowMatrices c)
        cascadesNear := b.cascadesNear.set c (shadow.nearPlanes c)
        cascadesFar := b.cascadesFar.set c (shadow.farPlanes c) })
    b

/-- The statement `if (shadow->enabled) { ... }` of `render_frame`: the shadow collaborator
and the per-scene block after it, and the calls made. -/
def shadow_stage (L : Linalg) (C : Collaborators) (K : Constants)
    (r : PhysicallyBasedRenderer NumEyes) (b : per_scene) :
    (StableCascadedShadowPass × per_scene) × List Call :=
  if r.shadow.enabled then
    let pass := run_shadow_pass L C r (shadowCamera L r)
    ((pass.1, copy_cascades K pass.1 b), pass.2)
  else ((r.shadow, b), [])

/-- The block `uniforms::per_view v` computed for a camera in the per-view loop. -/
def per_view_of (L : Linalg) (cam : CameraData) : per_view :=
  { view := L.matrix (L.poseInverse cam.pose)
    viewProj := L.mul cam.projectionMatrix (L.matrix (L.poseInverse cam.pose))
    eyePos := ⟨cam.pose.position.x, cam.pose.position.y, cam.pose.position.z, 1⟩ }

/-- The body of the per-view loop of `render_frame` for the index `eyeIdx`. -/
def render_view (L : Linalg) (eyeIdx : Fin NumEyes) :
    Op (PhysicallyBasedRenderer NumEyes × GlState) :=
  fun s =>
    let r := s.1
    let v := per_view_of L (r.cameras eyeIdx)
    let cam := { r.cameras eyeIdx with viewMatrix := v.view, viewProjMatrix := v.viewProj }
    let r := { r with cameras := Function.update r.cameras eyeIdx cam }
    let g := Op.seq
      [ Op.call (.set_per_view v),
        glEnable .GL_MULTISAMPLE,
        Op.call .glBindFramebuffer_multisample,
        Op.call (.glViewport r.renderSizePerEye.x r.renderSizePerEye.y),
        Op.call .glClearNamedFramebufferfv_color,
        Op.call .glClearNamedFramebufferfv_depth,
        Op.call .glClear,
        run_skybox_pass L r.skybox (r.cameras eyeIdx),
        run_forward_pass L r.renderSet (r.cameras eyeIdx),
        glDisable .GL_MULTISAMPLE,
        Op.call (.resolve eyeIdx),
        Op.call .gl_check_error ] s.2
    ((r, g.1), g.2)

/-- The first part of `render_frame`, up to `forwardTimer.stop()`: the renderer defaults, the
per-scene block, the shadow stage, the per-scene upload and the per-view loop. It runs from
the renderer `s.1` and the device flags `s.2`, when the frame timer reads `time`, and returns
the renderer and flags it leaves and the calls it made. -/
def render_frame_forward (L : Linalg) (C : Collaborators) (K : Constants) (time : float)
    (s : PhysicallyBasedRenderer NumEyes × GlState) :
    (PhysicallyBasedRenderer NumEyes × GlState) × List Call :=
  let r := s.1
  let start := Op.seq
    [ glEnable .GL_CULL_FACE,
      glEnable .GL_DEPTH_TEST,
      glEnable .GL_FRAMEBUFFER_SRGB,
      Op.call (.glBindBufferBase .per_scene),
      Op.call (.glBindBufferBase .per_view),
      Op.call (.glBindBufferBase .per_object) ] s.2
  let b := assemble_per_scene L K time r
  let sh := shadow_stage L C K r b
  let r := { r with shadow := sh.1.1 }
  let b := sh.1.2
  let views := Op.seq ((List.finRange NumEyes).map (render_view L)) (r, start.1)
  (views.1,
    start.2 ++ [Call.timer_start .shadowTimer] ++ sh.2
      ++ [Call.timer_stop .shadowTimer, Call.timer_start .forwardTimer, Call.set_per_scene b]
      ++ views.2
      ++ [Call.timer_stop .forwardTimer])

/-- The second part of `render_frame`, after `forwardTimer.stop()`: the output handles, the
post loop, and the end of the frame. The elapsed-time statistics computed at the end of the
frame are not part of the model. -/
def render_frame_post (s : PhysicallyBasedRenderer NumEyes × GlState) :
    (PhysicallyBasedRenderer NumEyes × GlState) × List Call :=
  let r := s.1
  let r := { r with
    outputTextureHandles := fun eyeIndex => some eyeIndex
    outputDepthTextureHandles := fun eyeIndex => some eyeIndex }
  let post := Op.seq ((List.finRange NumEyes).map (fun eyeIdx => run_post_pass (r.cameras eyeIdx)))
    s.2
  let fin := glDisable .GL_FRAMEBUFFER_SRGB post.1
  let r := { r with renderSet := [], pointLights := [] }
  ((r, fin.1),
    [Call.timer_start .postTimer] ++ post.2 ++ [Call.timer_stop .postTimer] ++ fin.2
      ++ [Call.gl_check_error])

/-- The method `render_frame`: its first part followed by its second part. -/
def render_frame (L : Linalg) (C : Collaborators) (K : Constants) (time : float) :
    Op (PhysicallyBasedRenderer NumEyes × GlState) :=
  Op.andThen (render_frame_forward L C K time) render_frame_post

/-- What a call of `add_camera` does. -/
inductive AddCameraResult (NumEyes : Nat) where
  /-- The condition of the `assert` is false: the program aborts before any write. -/
  | assertion_failed
  /-- The assertion passed and `cameras[data.index]` is an element of the array, now
  replaced. -/
  | stored (r : PhysicallyBasedRenderer NumEyes)
  /-- The assertion passed and the write `cameras[data.index] = data` is past the end of
  the array `CameraData cameras[NumEyes]`. -/
  | out_of_bounds_write

/-- The method `add_camera`: `assert(data.index <= NumEyes); cameras[data.index] = data;`. -/
def add_camera (r : PhysicallyBasedRenderer NumEyes) (data : CameraData) :
    AddCameraResult NumEyes :=
  if data.index ≤ NumEyes then
    if h : data.index < NumEyes then
      .stored { r with cameras := Function.update r.cameras ⟨data.index, h⟩ data }
    else .out_of_bounds_write
  else .assertion_failed

/-- The method `add_objects`. -/
def add_objects (r : PhysicallyBasedRenderer NumEyes) (set : List Renderable) :
    PhysicallyBasedRenderer NumEyes :=
  { r with renderSet := set }

/-- The method `add_light`. -/
def add_light (r : PhysicallyBasedRenderer NumEyes) (light : point_light) :
    PhysicallyBasedRenderer NumEyes :=
  { r with pointLights := r.pointLights ++ [light] }

/-- The drawable of a `draw` call. -/
def Call.drawable : Call → Option Renderable
  | .draw obj => some obj
  | _ => none

/-- The drawables of the `draw` calls of a call sequence, in order. -/
def drawn (calls : List Call) : List Renderable := calls.filterMap Call.drawable

/-! ## Reading a call sequence -/

/-- The block of a per-scene upload. -/
def Call.perScene : Call → Option per_scene
  | .set_per_scene b => some b
  | _ => none

/-- The per-scene blocks uploaded by a call sequence, in order. -/
def per_scene_uploads (calls : List Call) : List per_scene := calls.filterMap Call.perScene

/-- Whether a call is a multisample resolve. -/
def Call.isResolve : Call → Bool
  | .resolve _ => true
  | _ => false

/-- Whether a call belongs to a post pass: the bloom pass or its blit. -/
def Call.isPost : Call → Bool
  | .bloom_execute _ => true
  | .bloom_blit _ => true
  | _ => false

/-- The calls that `run_shadow_pass` can make. -/
def Call.inShadowPass : Call → Bool
  | .shadow_update_cascades _ _ _ _ _ _ => true
  | .shadow_pre_draw => true
  | .shadow_post_draw => true
  | .shadow_uniform_modelShadowMatrix _ => true
  | .draw _ => true
  | .gl_check_error => true
  | _ => false

/-- The calls that one iteration of the per-view loop of `render_frame` can make. -/
def Call.inViewLoop : Call → Bool
  | .set_per_view _ => true
  | .glEnable .GL_MULTISAMPLE => true
  | .glDisable .GL_MULTISAMPLE => true
  | .glBindFramebuffer_multisample => true
  | .glViewport _ _ => true
  | .glClearNamedFramebufferfv_color => true
  | .glClearNamedFramebufferfv_depth => true
  | .glClear => true
  | .glDisable .GL_DEPTH_TEST => true
  | .skybox_render _ _ _ => true
  | .glEnable .GL_DEPTH_TEST => true
  | .glDepthFunc _ => true
  | .glColorMask _ _ _ _ => true
  | .glDepthMask _ => true
  | .set_per_object _ => true
  | .material_update_uniforms _ => true
  | .update_cascaded_shadow_array_handle _ => true
  | .material_use _ => true
  | .draw _ => true
  | .resolve _ => true
  | .gl_check_error => true
  | _ => false

/-- The calls that `run_post_pass` can make. -/
def Call.inPostPass : Call → Bool
  | .glDisable .GL_CULL_FACE => true
  | .glDisable .GL_DEPTH_TEST => true
  | .glEnable .GL_CULL_FACE => true
  | .glEnable .GL_DEPTH_TEST => true
  | .bloom_execute _ => true
  | .bloom_blit _ => true
  | .gl_check_error => true
  | _ => false

/-! ## Pass stages, shadow calls, object calls, and the flags along a call sequence -/

/-- The pass stages of a frame. `Resolve` carries the index of the view whose target is
resolved into, `PostPass` the index of the texture the bloom pass runs on. -/
inductive Stage where
  | BeginFrame
  | ShadowPass
  | PerSceneUpload
  | PerViewUpload
  | MultisampleBind
  | Skybox
  | ForwardPass
  | Resolve (eyeIdx : Nat)
  | PostPass (index : Nat)
  | EndFrame
deriving DecidableEq, Repr

/-- The stage that a call opens, for the one call of each stage that no other stage makes:
`glEnable(GL_FRAMEBUFFER_SRGB)` for the renderer defaults, `update_cascades` for the shadow
pass, the uploads of the per-scene and per-view blocks, the bind of the multisample
framebuffer, the skybox `render`, `glDepthFunc(GL_LEQUAL)` for the forward pass, the resolve
blit, the bloom `execute` for the post pass, and `glDisable(GL_FRAMEBUFFER_SRGB)` for the end
of the frame. -/
def Call.stage : Call → Option Stage
  | .glEnable .GL_FRAMEBUFFER_SRGB => some .BeginFrame
  | .shadow_update_cascades _ _ _ _ _ _ => some .ShadowPass
  | .set_per_scene _ => some .PerSceneUpload
  | .set_per_view _ => some .PerViewUpload
  | .glBindFramebuffer_multisample => some .MultisampleBind
  | .skybox_render _ _ _ => some .Skybox
  | .glDepthFunc .GL_LEQUAL => some .ForwardPass
  | .resolve eyeIdx => some (.Resolve eyeIdx)
  | .bloom_execute index => some (.PostPass index)
  | .glDisable .GL_FRAMEBUFFER_SRGB => some .EndFrame
  | _ => none

/-- The stages of a call sequence, in order. -/
def stages (calls : List Call) : List Stage := calls.filterMap Call.stage

/-- Whether a call goes to the shadow collaborator. -/
def Call.isShadow : Call → Bool
  | .shadow_update_cascades _ _ _ _ _ _ => true
  | .shadow_pre_draw => true
  | .shadow_post_draw => true
  | .shadow_uniform_modelShadowMatrix _ => true
  | _ => false

/-- Whether a call is the upload of a per-object block or a draw. -/
def Call.isObjectCall : Call → Bool
  | .set_per_object _ => true
  | .draw _ => true
  | _ => false

/-- The per-object uploads and the draws of a call sequence, in order. -/
def objectCalls (calls : List Call) : List Call := calls.filter Call.isObjectCall

/-- The order in which `run_forward_pass` draws: the visiting order of the material queue,
then the visiting order of the default queue. -/
def forwardOrder (L : Linalg) (d : CameraData) (renderSet : List Renderable) :
    List Renderable :=
  (materialTraversal L d renderSet).map Subtype.val ++ defaultTraversal L d renderSet

/-- The effect of one call on the device flags: `glEnable` and `glDisable` set and clear
their flag, every other call leaves the flags as they are. -/
def GlState.apply (gl : GlState) : Call → GlState
  | .glEnable cap => gl.setEnabled cap true
  | .glDisable cap => gl.setEnabled cap false
  | _ => gl

/-- The device flags after a call sequence that starts from the flags `gl`. -/
def replay (calls : List Call) (gl : GlState) : GlState := calls.foldl GlState.apply gl

/-! ## A small scene, used to evaluate the definitions on concrete inputs -/

namespace Example

/-- A pose at the position `p` with the identity orientation. -/
def poseAt (p : float3) : Pose := ⟨⟨0, 0, 0, 1⟩, p⟩

/-- A camera with the given index whose eye is at `p`. -/
def camera (index : Nat) (p : float3) : CameraData :=
  ⟨index, poseAt p, float4x4.zero, float4x4.zero, float4x4.zero⟩

/-- A drawable at `p` with a material of the given id. -/
def withMaterial (id : Nat) (p : float3) : Renderable :=
  ⟨poseAt p, ⟨1, 1, 1⟩, some ⟨id, false⟩, true, true⟩

/-- A drawable at `p` without a material. -/
def withoutMaterial (p : float3) : Renderable :=
  ⟨poseAt p, ⟨1, 1, 1⟩, none, true, true⟩

/-- Modelled from the spec: the function `distance(a, b)` of `linalg.h`, a header that is not
among the sources, computed in `float` arithmetic as the length of `b - a`: the square root
of the sum, from left to right, of the squares of the differences of the components. -/
def distance (a b : float3) : float :=
  float.sqrt
    (float.add
      (float.add (float.mul (float.sub b.x a.x) (float.sub b.x a.x))
        (float.mul (float.sub b.y a.y) (float.sub b.y a.y)))
      (float.mul (float.sub b.z a.z) (float.sub b.z a.z)))

/-- A stand-in for the linear-algebra functions, with `distance` computed in `float`
arithmetic. -/
def linalg : Linalg :=
  { mul := fun a _ => a
    inverse := fun m => m
    transpose := fun m => m
    matrix := fun _ => float4x4.zero
    poseInverse := fun p => p
    make_scaling_matrix := fun _ => float4x4.zero
    make_view_matrix_from_pose := fun _ => float4x4.zero
    near_far_clip_from_projection := fun _ => ⟨0, 0⟩
    aspect_from_projection := fun _ => 0
    vfov_from_projection := fun _ => 0
    distance := distance
    div := fun _ v => v }

/-- Device flags, all off. -/
def flags : GlState := ⟨false, false, false, false⟩

/-- A shadow collaborator with all cascade data zero. -/
def shadowPass (enabled : Bool) : StableCascadedShadowPass :=
  ⟨enabled, fun _ => ⟨0, 0⟩, fun _ => float4x4.zero, fun _ => 0, fun _ => 0⟩

/-- Collaborators whose `update_cascades` leaves the shadow pass as it is. -/
def collaborators : Collaborators := ⟨fun shadow _ _ _ _ _ _ => shadow⟩

/-- A white point light of radius 1 at `(x, 0, 0)`. -/
def light (x : float) : point_light := ⟨⟨1, 1, 1⟩, ⟨x, 0, 0⟩, 1⟩

/-- A stereo renderer whose two eyes are at `p0` and `p1`, without a skybox. -/
def stereoAt (p0 p1 : float3) (shadowEnabled : Bool) (renderSet : List Renderable)
    (lights : List point_light) : PhysicallyBasedRenderer 2 :=
  { numEyes_ge_one := by decide
    renderSizePerEye := ⟨640, 480⟩
    cameras := fun i => if i.val = 0 then camera 0 p0 else camera 1 p1
    outputTextureHandles := fun _ => none
    outputDepthTextureHandles := fun _ => none
    renderSet := renderSet
    pointLights := lights
    sunlight := ⟨⟨1, 1, 1⟩, ⟨0, float.finite (-1), 0⟩, 1⟩
    skybox := none
    shadow := shadowPass shadowEnabled }

/-- A stereo renderer whose two eyes are at `(0, 0, 0)` and `(2, 0, 0)`, without a skybox. -/
def stereo (shadowEnabled : Bool) (renderSet : List Renderable) (lights : List point_light) :
    PhysicallyBasedRenderer 2 :=
  stereoAt ⟨0, 0, 0⟩ ⟨2, 0, 0⟩ shadowEnabled renderSet lights

end Example

/-! ## The priority queue visits a permutation of its content, greatest element first -/

namespace priority_queue

variable {α : Type}

/-- The scan returns the elements it was given, rearranged. -/
theorem takeTop_perm (comp : α → α → Bool) (best : α) (l : List α) :
    ((takeTop comp best l).1 :: (takeTop comp best l).2).Perm (best :: l) := by
  induction l generalizing best with
  | nil => exact List.Perm.refl _
  | cons y ys ih =>
    unfold takeTop
    by_cases h : comp best y = true
    · simp only [h, if_true]
      exact (List.Perm.swap _ _ _).trans ((ih y).cons best)
    · simp only [h]
      exact (List.Perm.swap _ _ _).trans (((ih best).cons y).trans (List.Perm.swap _ _ _))

/-- The scan removes exactly one element. -/
theorem takeTop_length (comp : α → α → Bool) (best : α) (l : List α) :
    (takeTop comp best l).2.length = l.length := by
  have h := (takeTop_perm comp best l).length_eq
  simpa using h

/-- With enough fuel the drain loop visits a permutation of the queue. -/
theorem drainFuel_perm (comp : α → α → Bool) (fuel : Nat) (q : List α) (h : q.length ≤ fuel) :
    (drainFuel comp fuel q).Perm q := by
  induction fuel generalizing q with
  | zero =>
    have hq : q = [] := List.length_eq_zero.mp (Nat.le_zero.mp h)
    subst hq
    exact List.Perm.refl _
  | succ n ih =>
    cases q with
    | nil => exact List.Perm.refl _
    | cons x xs =>
      have hlen : (takeTop comp x xs).2.length ≤ n := by
        rw [takeTop_length]
        simpa using h
      show ((takeTop comp x xs).1 :: drainFuel comp n (takeTop comp x xs).2).Perm (x :: xs)
      exact ((ih _ hlen).cons _).trans (takeTop_perm comp x xs)

/-- The drain loop visits a permutation of the queue. -/
theorem drain_perm (comp : α → α → Bool) (q : List α) : (drain comp q).Perm q :=
  drainFuel_perm comp q.length q (Nat.le_refl _)

/-- The element returned by the scan is one of the elements it was given. -/
theorem takeTop_mem (comp : α → α → Bool) (best : α) (l : List α) :
    (takeTop comp best l).1 ∈ best :: l :=
  (takeTop_perm comp best l).mem_iff.mp (List.mem_cons_self _ _)

/-- The elements left over by the scan are among the elements it was given. -/
theorem takeTop_rest_mem (comp : α → α → Bool) (best : α) (l : List α) (y : α)
    (hy : y ∈ (takeTop comp best l).2) : y ∈ best :: l :=
  (takeTop_perm comp best l).mem_iff.mp (List.mem_cons_of_mem _ hy)

/-- When the comparator is a strict weak ordering of the elements given, the element returned
by the scan is ordered before neither the start element nor any of the elements left over. -/
theorem takeTop_greatest {comp : α → α → Bool} {P : α → Prop} (hc : StrictWeak comp P)
    (best : α) (l : List α) (hb : P best) (hl : ∀ y ∈ l, P y) :
    comp (takeTop comp best l).1 best = false ∧
      ∀ y ∈ (takeTop comp best l).2, comp (takeTop comp best l).1 y = false := by
  induction l generalizing best with
  | nil =>
    refine ⟨?_, by simp [takeTop]⟩
    cases hbb : comp best best with
    | false => simpa [takeTop] using hbb
    | true => have := hc.asymm _ _ hb hb hbb; simp [hbb] at this
  | cons y ys ih =>
    have hy : P y := hl y (List.mem_cons_self _ _)
    have hys : ∀ z ∈ ys, P z := fun z hz => hl z (List.mem_cons_of_mem _ hz)
    unfold takeTop
    by_cases h : comp best y = true
    · simp only [h, if_true]
      obtain ⟨h1, h2⟩ := ih y hy hys
      have hm : P (takeTop comp y ys).1 := by
        rcases List.mem_cons.mp (takeTop_mem comp y ys) with e | e
        · rw [e]; exact hy
        · exact hys _ e
      have hbest : comp (takeTop comp y ys).1 best = false :=
        hc.negTrans _ _ _ hm hy hb h1 (hc.asymm _ _ hb hy h)
      refine ⟨hbest, ?_⟩
      intro z hz
      rcases List.mem_cons.mp hz with rfl | hz
      · exact hbest
      · exact h2 z hz
    · simp only [h]
      have h' : comp best y = false := by simpa using h
      obtain ⟨h1, h2⟩ := ih best hb hys
      have hm : P (takeTop comp best ys).1 := by
        rcases List.mem_cons.mp (takeTop_mem comp best ys) with e | e
        · rw [e]; exact hb
        · exact hys _ e
      refine ⟨h1, ?_⟩
      intro z hz
      rcases List.mem_cons.mp hz with rfl | hz
      · exact hc.negTrans _ _ _ hm hb hy h1 h'
      · exact h2 z hz

/-- With enough fuel, and when the comparator is a strict weak ordering of the elements of
the queue, no element visited by the drain loop is ordered before an element visited
later. -/
theorem drainFuel_pairwise {comp : α → α → Bool} {P : α → Prop} (hc : StrictWeak comp P)
    (fuel : Nat) (q : List α) (h : q.length ≤ fuel) (hq : ∀ x ∈ q, P x) :
    (drainFuel comp fuel q).Pairwise (fun x y => comp x y = false) := by
  induction fuel generalizing q with
  | zero => exact List.Pairwise.nil
  | succ n ih =>
    cases q with
    | nil => exact List.Pairwise.nil
    | cons x xs =>
      have hlen : (takeTop comp x xs).2.length ≤ n := by
        rw [takeTop_length]
        simpa using h
      have hx : P x := hq x (List.mem_cons_self _ _)
      have hxs : ∀ y ∈ xs, P y := fun y hy => hq y (List.mem_cons_of_mem _ hy)
      show ((takeTop comp x xs).1 :: drainFuel comp n (takeTop comp x xs).2).Pairwise _
      refine List.Pairwise.cons ?_
        (ih _ hlen (fun y hy => hq y (takeTop_rest_mem comp x xs y hy)))
      intro y hy
      exact (takeTop_greatest hc x xs hx hxs).2 y
        ((drainFuel_perm comp n _ hlen).mem_iff.mp hy)

/-- When the comparator is a strict weak ordering of the elements of the queue, no element
visited by the drain loop is ordered before an element visited later. -/
theorem drain_pairwise {comp : α → α → Bool} {P : α → Prop} (hc : StrictWeak comp P)
    (q : List α) (hq : ∀ x ∈ q, P x) :
    (drain comp q).Pairwise (fun x y => comp x y = false) :=
  drainFuel_pairwise hc q.length q (Nat.le_refl _) hq

/-- For a comparator that orders every element of greater key before every element of smaller
key, and no element before one of greater key: the element returned by the scan has the least
key. -/
theorem takeTop_key_le (comp : α → α → Bool) (key : α → Nat)
    (h₁ : ∀ a b, key b < key a → comp a b = true)
    (h₂ : ∀ a b, comp a b = true → key b ≤ key a) (best : α) (l : List α) :
    key (takeTop comp best l).1 ≤ key best ∧
      ∀ y ∈ (takeTop comp best l).2, key (takeTop comp best l).1 ≤ key y := by
  induction l generalizing best with
  | nil => exact ⟨Nat.le_refl _, by simp [takeTop]⟩
  | cons y ys ih =>
    unfold takeTop
    by_cases h : comp best y = true
    · simp only [h, if_true]
      obtain ⟨h3, h4⟩ := ih y
      have hbest : key (takeTop comp y ys).1 ≤ key best := Nat.le_trans h3 (h₂ _ _ h)
      refine ⟨hbest, ?_⟩
      intro z hz
      rcases List.mem_cons.mp hz with rfl | hz
      · exact hbest
      · exact h4 z hz
    · simp only [h]
      have hy : key best ≤ key y := by
        by_contra hlt
        exact h (h₁ _ _ (Nat.lt_of_not_le hlt))
      obtain ⟨h3, h4⟩ := ih best
      refine ⟨h3, ?_⟩
      intro z hz
      rcases List.mem_cons.mp hz with rfl | hz
      · exact Nat.le_trans h3 hy
      · exact h4 z hz

/-- For such a comparator the drain loop visits the elements in order of ascending key,
with enough fuel. -/
theorem drainFuel_key_pairwise (comp : α → α → Bool) (key : α → Nat)
    (h₁ : ∀ a b, key b < key a → comp a b = true)
    (h₂ : ∀ a b, comp a b = true → key b ≤ key a) (fuel : Nat) (q : List α)
    (h : q.length ≤ fuel) :
    (drainFuel comp fuel q).Pairwise (fun x y => key x ≤ key y) := by
  induction fuel generalizing q with
  | zero => exact List.Pairwise.nil
  | succ n ih =>
    cases q with
    | nil => exact List.Pairwise.nil
    | cons x xs =>
      have hlen : (takeTop comp x xs).2.length ≤ n := by
        rw [takeTop_length]
        simpa using h
      show ((takeTop comp x xs).1 :: drainFuel comp n (takeTop comp x xs).2).Pairwise _
      refine List.Pairwise.cons ?_ (ih _ hlen)
      intro y hy
      exact (takeTop_key_le comp key h₁ h₂ x xs).2 y
        ((drainFuel_perm comp n _ hlen).mem_iff.mp hy)

/-- For such a comparator the drain loop visits the elements in order of ascending key. -/
theorem drain_key_pairwise (comp : α → α → Bool) (key : α → Nat)
    (h₁ : ∀ a b, key b < key a → comp a b = true)
    (h₂ : ∀ a b, comp a b = true → key b ≤ key a) (q : List α) :
    (drain comp q).Pairwise (fun x y => key x ≤ key y) :=
  drainFuel_key_pairwise comp key h₁ h₂ q.length q (Nat.le_refl _)

end priority_queue

/-! ## The comparison of `float` values -/

/-- The comparison `<` of `float` values is asymmetric. -/
theorem float.lt_asymm (a b : float) (h : float.lt a b = true) : float.lt b a = false := by
  cases a <;> cases b <;> simp_all [float.lt]
  exact le_of_lt h

/-- On values that are not NaN, "not less than" is transitive. -/
theorem float.lt_negTrans (a b c : float) (ha : a.isNaN = false) (hb : b.isNaN = false)
    (hc : c.isNaN = false) (hab : float.lt a b = false) (hbc : float.lt b c = false) :
    float.lt a c = false := by
  cases a <;> cases b <;> cases c <;> simp_all [float.lt, float.isNaN]
  · exact le_trans hbc hab

/-- Two values that are not NaN and of which neither is less than the other are equal. -/
theorem float.eq_of_not_lt (a b : float) (ha : a.isNaN = false) (hb : b.isNaN = false)
    (hab : float.lt a b = false) (hba : float.lt b a = false) : a = b := by
  cases a <;> cases b <;> simp_all [float.lt, float.isNaN]
  · exact le_antisymm hba hab
  · rename_i x y
    cases x <;> cases y <;> simp_all

/-- No value is less than itself. -/
theorem float.lt_irrefl (a : float) : float.lt a a = false := by
  cases a <;> simp [float.lt]

/-! ## The arithmetic of `float` values -/

/-- Rounding never gives a NaN. -/
theorem float.round_isNaN (q : ℚ) : (float.round q).isNaN = false := by
  unfold float.round
  simp only []
  split_ifs <;> rfl

/-- The powers of two are positive. -/
theorem float.pow2_pos (e : Int) : 0 < float.pow2 e := by
  unfold float.pow2
  split_ifs
  · push_cast
    exact pow_pos (by norm_num) _
  · apply div_pos one_pos
    push_cast
    exact pow_pos (by norm_num) _

/-- Rounding to an integer maps a number that is not negative to an integer that is not
negative. -/
theorem float.roundHalfEven_nonneg (x : ℚ) (h : 0 ≤ x) : 0 ≤ float.roundHalfEven x := by
  have hf : 0 ≤ Rat.floor x := by
    rw [Rat.floor_def']
    exact Int.ediv_nonneg (Rat.num_nonneg.mpr h) (Int.ofNat_nonneg _)
  unfold float.roundHalfEven
  simp only []
  split_ifs <;> omega

/-- Rounding a number that is not negative gives a finite value that is not negative, or
`+inf`. -/
theorem float.round_nonneg_or_inf (q : ℚ) (h : 0 ≤ q) :
    float.round q = float.inf false ∨ ∃ v : ℚ, 0 ≤ v ∧ float.round q = float.finite v := by
  unfold float.round
  have hq : ¬ q < 0 := not_lt.mpr h
  simp only [hq, if_false, decide_False]
  split_ifs with h0 h1
  · exact Or.inr ⟨0, le_refl _, rfl⟩
  · exact Or.inl rfl
  · refine Or.inr ⟨_, ?_, rfl⟩
    apply mul_nonneg _ (le_of_lt (float.pow2_pos _))
    exact_mod_cast float.roundHalfEven_nonneg _ (div_nonneg h (le_of_lt (float.pow2_pos _)))

/-- The difference of two finite values is not a NaN. -/
theorem float.sub_finite_isNaN (a b : ℚ) :
    (float.sub (float.finite a) (float.finite b)).isNaN = false :=
  float.round_isNaN _

/-- The square of a value that is not a NaN is not negative: it is a finite value that is not
negative, or `+inf`. -/
theorem float.mul_self_nonneg_or_inf (x : float) (h : x.isNaN = false) :
    float.mul x x = float.inf false ∨ ∃ v : ℚ, 0 ≤ v ∧ float.mul x x = float.finite v := by
  cases x with
  | finite q => exact float.round_nonneg_or_inf _ (mul_self_nonneg q)
  | inf s => left; cases s <;> rfl
  | nan => simp [float.isNaN] at h

/-- The sum of two values that are not negative is not negative. -/
theorem float.add_nonneg_or_inf (x y : float)
    (hx : x = float.inf false ∨ ∃ v : ℚ, 0 ≤ v ∧ x = float.finite v)
    (hy : y = float.inf false ∨ ∃ v : ℚ, 0 ≤ v ∧ y = float.finite v) :
    float.add x y = float.inf false ∨ ∃ v : ℚ, 0 ≤ v ∧ float.add x y = float.finite v := by
  rcases hx with rfl | ⟨a, ha, rfl⟩ <;> rcases hy with rfl | ⟨b, hb, rfl⟩
  · left; rfl
  · left; rfl
  · left; rfl
  · exact float.round_nonneg_or_inf _ (add_nonneg ha hb)

/-- The square root of a value that is not negative is not a NaN. -/
theorem float.sqrt_isNaN (x : float)
    (hx : x = float.inf false ∨ ∃ v : ℚ, 0 ≤ v ∧ x = float.finite v) :
    (float.sqrt x).isNaN = false := by
  rcases hx with rfl | ⟨a, ha, rfl⟩
  · rfl
  · unfold float.sqrt
    have hq : ¬ a < 0 := not_lt.mpr ha
    simp only [hq, if_false]
    split_ifs <;> rfl

/-- The distance computed in `float` arithmetic between two positions whose coordinates are
all finite is not a NaN. -/
theorem Example.distance_isNaN (ax ay az bx b_y bz : ℚ) :
    (Example.distance ⟨float.finite ax, float.finite ay, float.finite az⟩
      ⟨float.finite bx, float.finite b_y, float.finite bz⟩).isNaN = false := by
  unfold Example.distance
  exact float.sqrt_isNaN _
    (float.add_nonneg_or_inf _ _
      (float.add_nonneg_or_inf _ _
        (float.mul_self_nonneg_or_inf _ (float.sub_finite_isNaN _ _))
        (float.mul_self_nonneg_or_inf _ (float.sub_finite_isNaN _ _)))
      (float.mul_self_nonneg_or_inf _ (float.sub_finite_isNaN _ _)))

/-! ## The two comparators and the two buckets -/

/-- The material of an element of the material queue, read from the drawable. -/
theorem MaterialRenderable.get_material_eq (x : MaterialRenderable) (m : Material)
    (h : x.val.material = some m) : x.get_material = m := by
  apply Option.some_injective
  rw [← h]
  simp [MaterialRenderable.get_material]

/-- The comparator `materialSortFunc` is a strict weak ordering of the drawables whose
distance to the eye is not NaN. -/
theorem materialSortFunc_strictWeak (L : Linalg) (d : CameraData) :
    priority_queue.StrictWeak (materialSortFunc L d)
      (fun x => (L.distance d.pose.position x.val.pose.position).isNaN = false) := by
  constructor
  · intro a b _ _ h
    simp only [materialSortFunc] at h ⊢
    split_ifs at h ⊢ with h1 h2 h2
    · simp only [decide_eq_true_eq, decide_eq_false_iff_not] at *
      omega
    · exact absurd (Eq.symm (not_not.mp h2)) h1
    · exact absurd (Eq.symm (not_not.mp h1)) h2
    · exact float.lt_asymm _ _ h
  · intro a b c _ hb _ hab hbc
    simp only [materialSortFunc] at hab hbc ⊢
    split_ifs at hab hbc ⊢ with h1 h2 h3 h3 h2 h3 h3 <;>
      simp only [decide_eq_true_eq, decide_eq_false_iff_not, not_not, ne_eq] at * <;>
      first
        | omega
        | exact float.lt_negTrans _ _ _ (by assumption) hb (by assumption) hab hbc

/-- The comparator `materialSortFunc` orders a drawable of greater material id before every
drawable of smaller material id, whatever the distances. -/
theorem materialSortFunc_of_id_lt (L : Linalg) (d : CameraData) (a b : MaterialRenderable)
    (h : b.get_material.id < a.get_material.id) : materialSortFunc L d a b = true := by
  simp only [materialSortFunc]
  rw [if_pos (by omega)]
  simpa using h

/-- The comparator `materialSortFunc` orders no drawable before one of greater material id,
whatever the distances. -/
theorem materialSortFunc_id_le (L : Linalg) (d : CameraData) (a b : MaterialRenderable)
    (h : materialSortFunc L d a b = true) : b.get_material.id ≤ a.get_material.id := by
  simp only [materialSortFunc] at h
  split_ifs at h with h1
  · simp only [decide_eq_true_eq] at h
    omega
  · simp only [ne_eq, not_not] at h1
    omega

/-- The comparator `distanceSortFunc` is a strict weak ordering of the drawables whose
distance to the eye is not NaN. -/
theorem distanceSortFunc_strictWeak (L : Linalg) (d : CameraData) :
    priority_queue.StrictWeak (distanceSortFunc L d)
      (fun x => (L.distance d.pose.position x.pose.position).isNaN = false) := by
  constructor
  · intro a b _ _ h
    exact float.lt_asymm _ _ h
  · intro a b c ha hb hc hab hbc
    exact float.lt_negTrans _ _ _ ha hb hc hab hbc

/-- The bucketing loop, started from any pair of queues, appends to the first queue the
drawables that have a material and to the second those that have none, in input order. -/
theorem foldl_bucketStep (renderSet : List Renderable)
    (q : List MaterialRenderable × List Renderable) :
    (renderSet.foldl bucketStep q).1.map Subtype.val
        = q.1.map Subtype.val ++ renderSet.filter (fun obj => obj.material.isSome) ∧
      (renderSet.foldl bucketStep q).2
        = q.2 ++ renderSet.filter (fun obj => !obj.material.isSome) := by
  induction renderSet generalizing q with
  | nil => simp
  | cons obj rest ih =>
    rw [List.foldl_cons]
    by_cases h : obj.material.isSome = true
    · have hs : bucketStep q obj = (priority_queue.push q.1 ⟨obj, h⟩, q.2) := by
        simp [bucketStep, h]
      rw [hs]
      obtain ⟨h1, h2⟩ := ih (priority_queue.push q.1 ⟨obj, h⟩, q.2)
      have hn : obj.material.isNone = false :=
        (fun o : Option Material => show o.isSome = true → o.isNone = false by
          cases o <;> simp) _ h
      constructor
      · rw [h1]; simp [priority_queue.push, h]
      · rw [h2]; simp [List.filter_cons, hn]
    · have hs : bucketStep q obj = (q.1, priority_queue.push q.2 obj) := by
        simp [bucketStep, h]
      rw [hs]
      obtain ⟨h1, h2⟩ := ih (q.1, priority_queue.push q.2 obj)
      have hn : obj.material.isNone = true :=
        (fun o : Option Material => show ¬ o.isSome = true → o.isNone = true by
          cases o <;> simp) _ h
      constructor
      · rw [h1]; simp [h]
      · rw [h2]; simp [priority_queue.push, List.filter_cons, hn]

/-- The material queue holds the drawables with a material, in input order. -/
theorem bucket_fst (renderSet : List Renderable) :
    (bucket renderSet).1.map Subtype.val = renderSet.filter (fun obj => obj.material.isSome) := by
  simpa [bucket] using (foldl_bucketStep renderSet ([], [])).1

/-- The default queue holds the drawables without a material, in input order. -/
theorem bucket_snd (renderSet : List Renderable) :
    (bucket renderSet).2 = renderSet.filter (fun obj => !obj.material.isSome) := by
  simpa [bucket] using (foldl_bucketStep renderSet ([], [])).2

/-! ## Calls of a block of statements -/

/-- The drawables drawn by two call sequences in a row. -/
theorem drawn_append (a b : List Call) : drawn (a ++ b) = drawn a ++ drawn b := by
  simp [drawn]

/-- A loop whose body draws exactly one drawable per element draws them in loop order. -/
theorem drawn_seq_map {ι σ : Type} (f : ι → Op σ) (g : ι → Renderable)
    (hf : ∀ x s, drawn (f x s).2 = [g x]) (l : List ι) (s : σ) :
    drawn (Op.seq (l.map f) s).2 = l.map g := by
  induction l generalizing s with
  | nil => rfl
  | cons x xs ih =>
    simp only [List.map_cons, Op.seq, Op.andThen, drawn_append, hf, ih]
    rfl

/-- The drawables drawn by `run_forward_pass`: the visiting order of the material queue,
then the visiting order of the default queue. -/
theorem drawn_run_forward_pass (L : Linalg) (renderSet : List Renderable) (d : CameraData)
    (gl : GlState) :
    drawn (run_forward_pass L renderSet d gl).2
      = (materialTraversal L d renderSet).map Subtype.val ++ defaultTraversal L d renderSet := by
  have hm : ∀ (x : MaterialRenderable) (s : GlState),
      drawn (draw_with_material L d x s).2 = [x.val] := by
    intro x s
    by_cases hmr : x.get_material.isMetallicRoughness = true <;>
      simp [draw_with_material, update_per_object, Op.seq, Op.andThen, Op.call, Op.nop, drawn,
        Call.drawable, hmr]
  have hd : ∀ (x : Renderable) (s : GlState), drawn (draw_default L d x s).2 = [x] := by
    intro x s
    simp [draw_default, update_per_object, Op.seq, Op.andThen, Op.call, Op.nop, drawn,
      Call.drawable]
  simp only [run_forward_pass, Op.seq, Op.andThen, drawn_append, drawn_seq_map _ _ hm,
    drawn_seq_map _ _ hd]
  simp [drawn, Call.drawable, glEnable, Op.call, Op.nop]

/-! ## Draw order of the forward pass -/

/-- In a list ordered pairwise by `R`, an element at a smaller index is related to an
element at a larger index. -/
theorem pairwise_getElem? {α : Type} {R : α → α → Prop} {l : List α} (hp : l.Pairwise R)
    {i j : Nat} {a b : α} (ha : l[i]? = some a) (hb : l[j]? = some b) (hij : i < j) :
    R a b := by
  obtain ⟨hi, rfl⟩ := List.getElem?_eq_some.mp ha
  obtain ⟨hj, rfl⟩ := List.getElem?_eq_some.mp hb
  exact List.pairwise_iff_getElem.mp hp i j hi hj hij

/-- The drawables without a material are the elements of the default queue. -/
theorem defaultTraversal_material (L : Linalg) (d : CameraData) (renderSet : List Renderable) :
    ∀ y ∈ defaultTraversal L d renderSet, y.material = none := by
  intro y hy
  have hy' : y ∈ (bucket renderSet).2 :=
    (priority_queue.drain_perm (distanceSortFunc L d) _).mem_iff.mp hy
  rw [bucket_snd] at hy'
  have := (List.mem_filter.mp hy').2
  revert this
  cases y.material <;> simp

/-- The primary key of the draw order of `run_forward_pass`, for a drawable `x` drawn before a
drawable `y`, whatever the distances: if both have a material, the id of `x` is at most the id
of `y`; if `x` has no material then `y` has none either. -/
theorem drawn_run_forward_pass_pairwise (L : Linalg) (renderSet : List Renderable)
    (d : CameraData) (gl : GlState) :
    (drawn (run_forward_pass L renderSet d gl).2).Pairwise (fun x y =>
      (∀ mx my, x.material = some mx → y.material = some my → mx.id ≤ my.id) ∧
      (x.material = none → y.material = none)) := by
  rw [drawn_run_forward_pass]
  have hnone := defaultTraversal_material L d renderSet
  rw [List.pairwise_append]
  refine ⟨?_, ?_, ?_⟩
  · rw [List.pairwise_map]
    refine (priority_queue.drain_key_pairwise (materialSortFunc L d)
      (fun x => x.get_material.id) (materialSortFunc_of_id_lt L d)
      (materialSortFunc_id_le L d) _).imp ?_
    intro x y hxy
    refine ⟨?_, ?_⟩
    · intro mx my hx hy
      have ex := MaterialRenderable.get_material_eq x mx hx
      have ey := MaterialRenderable.get_material_eq y my hy
      simpa [ex, ey] using hxy
    · intro hx
      have := x.property
      rw [hx] at this
      simp at this
  · refine List.Pairwise.imp_of_mem ?_ (List.pairwise_of_forall (fun _ _ => trivial))
    intro x y _ hy _
    refine ⟨?_, fun _ => hnone y hy⟩
    intro mx my _ hy'
    rw [hnone y hy] at hy'
    simp at hy'
  · intro x hx y hy
    refine ⟨?_, ?_⟩
    · intro mx my _ hy'
      rw [hnone y hy] at hy'
      simp at hy'
    · intro hx'
      obtain ⟨x', _, rfl⟩ := List.mem_map.mp hx
      have := x'.property
      rw [hx'] at this
      simp at this

/-- The secondary key of the draw order of `run_forward_pass` among the drawables with a
material, when none of them has a NaN distance to the eye: a drawable `x` drawn before a
drawable `y` of the same material id is not at a smaller distance than `y`. -/
theorem drawn_run_forward_pass_pairwise_material (L : Linalg) (renderSet : List Renderable)
    (d : CameraData) (gl : GlState)
    (hnan : ∀ x ∈ renderSet, x.material.isSome = true →
      (L.distance d.pose.position x.pose.position).isNaN = false) :
    (drawn (run_forward_pass L renderSet d gl).2).Pairwise (fun x y =>
      ∀ mx my, x.material = some mx → y.material = some my → mx.id = my.id →
        float.lt (L.distance d.pose.position x.pose.position)
          (L.distance d.pose.position y.pose.position) = false) := by
  rw [drawn_run_forward_pass]
  have hnone := defaultTraversal_material L d renderSet
  have hq : ∀ x ∈ (bucket renderSet).1,
      (L.distance d.pose.position x.val.pose.position).isNaN = false := by
    intro x hx
    have hx' : x.val ∈ (bucket renderSet).1.map Subtype.val := List.mem_map_of_mem _ hx
    rw [bucket_fst] at hx'
    exact hnan x.val (List.mem_filter.mp hx').1 x.property
  rw [List.pairwise_append]
  refine ⟨?_, ?_, ?_⟩
  · rw [List.pairwise_map]
    refine (priority_queue.drain_pairwise (materialSortFunc_strictWeak L d) _ hq).imp ?_
    intro x y hxy mx my hx hy hid
    have ex := MaterialRenderable.get_material_eq x mx hx
    have ey := MaterialRenderable.get_material_eq y my hy
    simp only [materialSortFunc, ex, ey] at hxy
    rw [if_neg (by simpa using hid)] at hxy
    exact hxy
  · refine List.Pairwise.imp_of_mem ?_ (List.pairwise_of_forall (fun _ _ => trivial))
    intro x y _ hy _ mx my _ hy'
    rw [hnone y hy] at hy'
    simp at hy'
  · intro x _ y hy mx my _ hy'
    rw [hnone y hy] at hy'
    simp at hy'

/-- The draw order of `run_forward_pass` among the drawables without a material, when none of
them has a NaN distance to the eye: a drawable `x` without a material drawn before a drawable
`y` is not at a smaller distance than `y`. -/
theorem drawn_run_forward_pass_pairwise_default (L : Linalg) (renderSet : List Renderable)
    (d : CameraData) (gl : GlState)
    (hnan : ∀ x ∈ renderSet, x.material = none →
      (L.distance d.pose.position x.pose.position).isNaN = false) :
    (drawn (run_forward_pass L renderSet d gl).2).Pairwise (fun x y =>
      x.material = none →
        float.lt (L.distance d.pose.position x.pose.position)
          (L.distance d.pose.position y.pose.position) = false) := by
  rw [drawn_run_forward_pass]
  have hq : ∀ x ∈ (bucket renderSet).2,
      (L.distance d.pose.position x.pose.position).isNaN = false := by
    intro x hx
    rw [bucket_snd] at hx
    have h := List.mem_filter.mp hx
    refine hnan x h.1 ?_
    have h2 := h.2
    revert h2
    cases x.material <;> simp
  rw [List.pairwise_append]
  refine ⟨?_, ?_, ?_⟩
  · rw [List.pairwise_map]
    refine List.Pairwise.imp_of_mem ?_ (List.pairwise_of_forall (fun _ _ => trivial))
    intro x y _ _ _ hx
    have := x.property
    rw [hx] at this
    simp at this
  · refine (priority_queue.drain_pairwise (distanceSortFunc_strictWeak L d) _ hq).imp ?_
    intro x y hxy _
    exact hxy
  · intro x hx y _ hx'
    obtain ⟨x', _, rfl⟩ := List.mem_map.mp hx
    have := x'.property
    rw [hx'] at this
    simp at this

/-- Two drawables whose computed `float` distances are equal are drawn in the order in which
they were pushed, whichever is nearer: the positions `(1, 0, 0)` and `(1, 2^-20, 0)` are both
at `float` distance 1 from the origin, the positions `(2^100, 0, 0)` and `(2^101, 0, 0)` both
at `float` distance `+inf`. -/
theorem run_forward_pass_equal_float_distance_push_order :
    Example.linalg.distance ⟨0, 0, 0⟩ ⟨1, float.finite (1 / 1048576), 0⟩ = 1 ∧
    drawn (run_forward_pass Example.linalg
        [Example.withMaterial 1 ⟨1, 0, 0⟩, Example.withMaterial 1 ⟨1, float.finite (1 / 1048576), 0⟩]
        (Example.camera 0 ⟨0, 0, 0⟩) Example.flags).2
      = [Example.withMaterial 1 ⟨1, 0, 0⟩,
          Example.withMaterial 1 ⟨1, float.finite (1 / 1048576), 0⟩] ∧
    drawn (run_forward_pass Example.linalg
        [Example.withoutMaterial ⟨1, 0, 0⟩, Example.withoutMaterial ⟨1, float.finite (1 / 1048576), 0⟩]
        (Example.camera 0 ⟨0, 0, 0⟩) Example.flags).2
      = [Example.withoutMaterial ⟨1, 0, 0⟩,
          Example.withoutMaterial ⟨1, float.finite (1 / 1048576), 0⟩] ∧
    Example.linalg.distance ⟨0, 0, 0⟩ ⟨float.finite (2 ^ 100), 0, 0⟩ = float.inf false ∧
    Example.linalg.distance ⟨0, 0, 0⟩ ⟨float.finite (2 ^ 101), 0, 0⟩ = float.inf false ∧
    drawn (run_forward_pass Example.linalg
        [Example.withoutMaterial ⟨float.finite (2 ^ 100), 0, 0⟩,
          Example.withoutMaterial ⟨float.finite (2 ^ 101), 0, 0⟩]
        (Example.camera 0 ⟨0, 0, 0⟩) Example.flags).2
      = [Example.withoutMaterial ⟨float.finite (2 ^ 100), 0, 0⟩,
          Example.withoutMaterial ⟨float.finite (2 ^ 101), 0, 0⟩] := by
  refine ⟨?_, ?_, ?_, ?_, ?_, ?_⟩ <;> decide!

/-- C1, as stated, fails on the code: with the eye at the origin and the render set holding a
drawable of material id 2 at distance 1 and a drawable of material id 1 at distance 2,
`run_forward_pass` draws the drawable of id 1 first and the drawable of id 2 second. -/
theorem run_forward_pass_higher_id_drawn_later :
    drawn (run_forward_pass Example.linalg
        [Example.withMaterial 2 ⟨1, 0, 0⟩, Example.withMaterial 1 ⟨2, 0, 0⟩]
        (Example.camera 0 ⟨0, 0, 0⟩) Example.flags).2
      = [Example.withMaterial 1 ⟨2, 0, 0⟩, Example.withMaterial 2 ⟨1, 0, 0⟩] ∧
    (Example.withMaterial 2 ⟨1, 0, 0⟩).material = some ⟨2, false⟩ ∧
    (Example.withMaterial 1 ⟨2, 0, 0⟩).material = some ⟨1, false⟩ := by
  decide

/-- C1, amended: in `run_forward_pass`, for every render set, camera and device state, if the
`i`-th drawable drawn is `a` and the `j`-th drawable drawn is `b`, both have a material and
`id(a) > id(b)`, then `b` is drawn before `a` (`j < i`), whatever their distances to the eye:
the material id is the primary key in ascending order, the priority queue popping the
greatest element under `materialSortFunc`. -/
theorem run_forward_pass_material_id_ascending (L : Linalg) (renderSet : List Renderable)
    (d : CameraData) (gl : GlState) (i j : Nat) (a b : Renderable) (ma mb : Material)
    (hi : (drawn (run_forward_pass L renderSet d gl).2)[i]? = some a)
    (hj : (drawn (run_forward_pass L renderSet d gl).2)[j]? = some b)
    (ha : a.material = some ma) (hb : b.material = some mb) (hid : ma.id > mb.id) :
    j < i := by
  by_contra hlt
  rcases Nat.lt_or_eq_of_le (Nat.le_of_not_lt hlt) with hij | hij
  · have h := (pairwise_getElem? (drawn_run_forward_pass_pairwise L renderSet d gl) hi hj hij).1
      ma mb ha hb
    omega
  · subst hij
    have hab : a = b := Option.some_injective _ (hi.symm.trans hj)
    subst hab
    have hm : ma = mb := Option.some_injective _ (ha.symm.trans hb)
    subst hm
    omega

/-- C1, amended, at a concrete scene: the drawable of material id 2 is the second one drawn
and the drawable of material id 1 the first. -/
theorem run_forward_pass_material_id_ascending_witness :
    (drawn (run_forward_pass Example.linalg
        [Example.withMaterial 2 ⟨1, 0, 0⟩, Example.withMaterial 1 ⟨2, 0, 0⟩]
        (Example.camera 0 ⟨0, 0, 0⟩) Example.flags).2)[1]?
      = some (Example.withMaterial 2 ⟨1, 0, 0⟩) ∧
    (drawn (run_forward_pass Example.linalg
        [Example.withMaterial 2 ⟨1, 0, 0⟩, Example.withMaterial 1 ⟨2, 0, 0⟩]
        (Example.camera 0 ⟨0, 0, 0⟩) Example.flags).2)[0]?
      = some (Example.withMaterial 1 ⟨2, 0, 0⟩) ∧
    (0 : Nat) < 1 :=
  ⟨by decide, by decide,
    run_forward_pass_material_id_ascending Example.linalg
      [Example.withMaterial 2 ⟨1, 0, 0⟩, Example.withMaterial 1 ⟨2, 0, 0⟩]
      (Example.camera 0 ⟨0, 0, 0⟩) Example.flags 1 0
      (Example.withMaterial 2 ⟨1, 0, 0⟩) (Example.withMaterial 1 ⟨2, 0, 0⟩)
      ⟨2, false⟩ ⟨1, false⟩ (by decide) (by decide) rfl rfl (by decide)⟩

/-- C2, as stated, fails on the code: with the eye at the origin and two drawables of the same
material id 1, one at distance 1 and one at distance 2, `run_forward_pass` draws the farther
one first and the nearer one second. -/
theorem run_forward_pass_equal_id_nearer_drawn_later :
    drawn (run_forward_pass Example.linalg
        [Example.withMaterial 1 ⟨1, 0, 0⟩, Example.withMaterial 1 ⟨2, 0, 0⟩]
        (Example.camera 0 ⟨0, 0, 0⟩) Example.flags).2
      = [Example.withMaterial 1 ⟨2, 0, 0⟩, Example.withMaterial 1 ⟨1, 0, 0⟩] ∧
    Example.linalg.distance (Example.camera 0 ⟨0, 0, 0⟩).pose.position
        (Example.withMaterial 1 ⟨1, 0, 0⟩).pose.position = 1 ∧
    Example.linalg.distance (Example.camera 0 ⟨0, 0, 0⟩).pose.position
        (Example.withMaterial 1 ⟨2, 0, 0⟩).pose.position = 2 := by
  decide!

/-- C2, amended: in `run_forward_pass`, when no drawable with a material has a NaN distance to
the eye (so that `materialSortFunc` is a strict weak ordering of the material queue): if the
`i`-th drawable drawn is `a` and the `j`-th drawable drawn is `b`, both have materials with
equal ids, and the `float` distance computed for `a` is less than the one computed for `b`
(`lDist < rDist` in `float`), then the farther one `b` is drawn before the nearer one `a`
(`j < i`): the secondary key is the computed distance in descending order. Two drawables
whose computed distances are equal as `float` values are not ordered by this rule. -/
theorem run_forward_pass_equal_id_farther_first (L : Linalg) (renderSet : List Renderable)
    (d : CameraData) (gl : GlState) (i j : Nat) (a b : Renderable) (ma mb : Material)
    (hnan : ∀ x ∈ renderSet, x.material.isSome = true →
      (L.distance d.pose.position x.pose.position).isNaN = false)
    (hi : (drawn (run_forward_pass L renderSet d gl).2)[i]? = some a)
    (hj : (drawn (run_forward_pass L renderSet d gl).2)[j]? = some b)
    (ha : a.material = some ma) (hb : b.material = some mb) (hid : ma.id = mb.id)
    (hdist : float.lt (L.distance d.pose.position a.pose.position)
      (L.distance d.pose.position b.pose.position) = true) :
    j < i := by
  by_contra hlt
  rcases Nat.lt_or_eq_of_le (Nat.le_of_not_lt hlt) with hij | hij
  · have h := pairwise_getElem? (drawn_run_forward_pass_pairwise_material L renderSet d gl hnan)
      hi hj hij ma mb ha hb hid
    rw [hdist] at h
    exact Bool.noConfusion h
  · subst hij
    have hab : a = b := Option.some_injective _ (hi.symm.trans hj)
    subst hab
    rw [float.lt_irrefl] at hdist
    exact Bool.noConfusion hdist

/-- C2, amended, at a concrete scene: of two drawables of material id 1, the one at distance 1
is the second one drawn and the one at distance 2 the first. -/
theorem run_forward_pass_equal_id_farther_first_witness :
    (drawn (run_forward_pass Example.linalg
        [Example.withMaterial 1 ⟨1, 0, 0⟩, Example.withMaterial 1 ⟨2, 0, 0⟩]
        (Example.camera 0 ⟨0, 0, 0⟩) Example.flags).2)[1]?
      = some (Example.withMaterial 1 ⟨1, 0, 0⟩) ∧
    (drawn (run_forward_pass Example.linalg
        [Example.withMaterial 1 ⟨1, 0, 0⟩, Example.withMaterial 1 ⟨2, 0, 0⟩]
        (Example.camera 0 ⟨0, 0, 0⟩) Example.flags).2)[0]?
      = some (Example.withMaterial 1 ⟨2, 0, 0⟩) ∧
    (0 : Nat) < 1 :=
  ⟨by decide!, by decide!,
    run_forward_pass_equal_id_farther_first Example.linalg
      [Example.withMaterial 1 ⟨1, 0, 0⟩, Example.withMaterial 1 ⟨2, 0, 0⟩]
      (Example.camera 0 ⟨0, 0, 0⟩) Example.flags 1 0
      (Example.withMaterial 1 ⟨1, 0, 0⟩) (Example.withMaterial 1 ⟨2, 0, 0⟩)
      ⟨1, false⟩ ⟨1, false⟩ (by decide!) (by decide!) (by decide!)
      rfl rfl rfl (by decide!)⟩

/-- C3, as stated, fails on the code: with the eye at the origin and two drawables without a
material, one at distance 1 and one at distance 2, `run_forward_pass` draws the farther one
first and the nearer one second. -/
theorem run_forward_pass_fallback_nearer_drawn_later :
    drawn (run_forward_pass Example.linalg
        [Example.withoutMaterial ⟨1, 0, 0⟩, Example.withoutMaterial ⟨2, 0, 0⟩]
        (Example.camera 0 ⟨0, 0, 0⟩) Example.flags).2
      = [Example.withoutMaterial ⟨2, 0, 0⟩, Example.withoutMaterial ⟨1, 0, 0⟩] ∧
    Example.linalg.distance (Example.camera 0 ⟨0, 0, 0⟩).pose.position
        (Example.withoutMaterial ⟨1, 0, 0⟩).pose.position = 1 ∧
    Example.linalg.distance (Example.camera 0 ⟨0, 0, 0⟩).pose.position
        (Example.withoutMaterial ⟨2, 0, 0⟩).pose.position = 2 := by
  decide!

/-- C3, amended: in `run_forward_pass`, when no drawable without a material has a NaN distance
to the eye (so that `distanceSortFunc` is a strict weak ordering of the default queue), the
drawables without a material (the fallback bucket) are drawn in order of descending computed
distance from the eye position: if the `i`-th drawable drawn is `a` and the `j`-th drawable
drawn is `b`, neither has a material, and the `float` distance computed for `a` is less than
the one computed for `b` (`lDist < rDist` in `float`), then the farther one `b` is drawn
before the nearer one `a` (`j < i`). Two drawables whose computed distances are equal as
`float` values are not ordered by this rule. -/
theorem run_forward_pass_fallback_farther_first (L : Linalg) (renderSet : List Renderable)
    (d : CameraData) (gl : GlState) (i j : Nat) (a b : Renderable)
    (hnan : ∀ x ∈ renderSet, x.material = none →
      (L.distance d.pose.position x.pose.position).isNaN = false)
    (hi : (drawn (run_forward_pass L renderSet d gl).2)[i]? = some a)
    (hj : (drawn (run_forward_pass L renderSet d gl).2)[j]? = some b)
    (ha : a.material = none) (hb : b.material = none)
    (hdist : float.lt (L.distance d.pose.position a.pose.position)
      (L.distance d.pose.position b.pose.position) = true) :
    j < i := by
  by_contra hlt
  rcases Nat.lt_or_eq_of_le (Nat.le_of_not_lt hlt) with hij | hij
  · have h := pairwise_getElem? (drawn_run_forward_pass_pairwise_default L renderSet d gl hnan)
      hi hj hij ha
    rw [hdist] at h
    exact Bool.noConfusion h
  · subst hij
    have hab : a = b := Option.some_injective _ (hi.symm.trans hj)
    subst hab
    rw [float.lt_irrefl] at hdist
    exact Bool.noConfusion hdist

/-- C3, amended, at a concrete scene: of two drawables without a material, the one at
distance 1 is the second one drawn and the one at distance 2 the first. -/
theorem run_forward_pass_fallback_farther_first_witness :
    (drawn (run_forward_pass Example.linalg
        [Example.withoutMaterial ⟨1, 0, 0⟩, Example.withoutMaterial ⟨2, 0, 0⟩]
        (Example.camera 0 ⟨0, 0, 0⟩) Example.flags).2)[1]?
      = some (Example.withoutMaterial ⟨1, 0, 0⟩) ∧
    (drawn (run_forward_pass Example.linalg
        [Example.withoutMaterial ⟨1, 0, 0⟩, Example.withoutMaterial ⟨2, 0, 0⟩]
        (Example.camera 0 ⟨0, 0, 0⟩) Example.flags).2)[0]?
      = some (Example.withoutMaterial ⟨2, 0, 0⟩) ∧
    (0 : Nat) < 1 :=
  ⟨by decide!, by decide!,
    run_forward_pass_fallback_farther_first Example.linalg
      [Example.withoutMaterial ⟨1, 0, 0⟩, Example.withoutMaterial ⟨2, 0, 0⟩]
      (Example.camera 0 ⟨0, 0, 0⟩) Example.flags 1 0
      (Example.withoutMaterial ⟨1, 0, 0⟩) (Example.withoutMaterial ⟨2, 0, 0⟩)
      (by decide!) (by decide!) (by decide!)
      rfl rfl (by decide!)⟩

/-- C4: for every render set, the sequence of drawables drawn by one `run_forward_pass` call
is a permutation of the render set (every input drawable is drawn exactly once); it is the
traversal of the material bucket followed by the traversal of the fallback bucket, where the
material bucket is a permutation of the input drawables whose material reference is non-null
and the fallback bucket a permutation of those whose material reference is null. -/
theorem run_forward_pass_draws_each_once (L : Linalg) (renderSet : List Renderable)
    (d : CameraData) (gl : GlState) :
    (drawn (run_forward_pass L renderSet d gl).2).Perm renderSet ∧
    drawn (run_forward_pass L renderSet d gl).2
      = (materialTraversal L d renderSet).map Subtype.val ++ defaultTraversal L d renderSet ∧
    ((materialTraversal L d renderSet).map Subtype.val).Perm
      (renderSet.filter (fun obj => obj.material.isSome)) ∧
    (defaultTraversal L d renderSet).Perm
      (renderSet.filter (fun obj => !obj.material.isSome)) := by
  have hm : ((materialTraversal L d renderSet).map Subtype.val).Perm
      (renderSet.filter (fun obj => obj.material.isSome)) := by
    rw [← bucket_fst]
    exact (priority_queue.drain_perm (materialSortFunc L d) _).map _
  have hd : (defaultTraversal L d renderSet).Perm
      (renderSet.filter (fun obj => !obj.material.isSome)) := by
    rw [← bucket_snd]
    exact priority_queue.drain_perm (distanceSortFunc L d) _
  refine ⟨?_, drawn_run_forward_pass L renderSet d gl, hm, hd⟩
  rw [drawn_run_forward_pass]
  exact (hm.append hd).trans (List.filter_append_perm _ renderSet)

/-! ## Calls made by the passes of a frame -/

/-- Every call of a block of statements is a call of one of its statements. -/
theorem Op.seq_calls_forall {σ : Type} (P : Call → Prop) (ops : List (Op σ))
    (h : ∀ op ∈ ops, ∀ s, ∀ c ∈ (op s).2, P c) (s : σ) :
    ∀ c ∈ (Op.seq ops s).2, P c := by
  induction ops generalizing s with
  | nil => intro c hc; simp [Op.seq, Op.nop] at hc
  | cons a rest ih =>
    intro c hc
    simp only [Op.seq, Op.andThen, List.mem_append] at hc
    rcases hc with hc | hc
    · exact h a (List.mem_cons_self _ _) s c hc
    · exact ih (fun op hop => h op (List.mem_cons_of_mem _ hop)) _ c hc

/-- A call that a statement of a block makes from every state is a call of the block. -/
theorem Op.mem_seq_calls {σ : Type} (c : Call) (ops : List (Op σ)) (op : Op σ)
    (hop : op ∈ ops) (h : ∀ s, c ∈ (op s).2) (s : σ) : c ∈ (Op.seq ops s).2 := by
  induction ops generalizing s with
  | nil => simp at hop
  | cons a rest ih =>
    simp only [Op.seq, Op.andThen, List.mem_append]
    rcases List.mem_cons.mp hop with rfl | hop
    · exact Or.inl (h s)
    · exact Or.inr (ih hop _)

/-- The calls of `run_shadow_pass`. -/
theorem run_shadow_pass_calls (L : Linalg) (C : Collaborators)
    (r : PhysicallyBasedRenderer NumEyes) (d : CameraData) :
    ∀ c ∈ (run_shadow_pass L C r d).2, c.inShadowPass = true := by
  intro c hc
  simp only [run_shadow_pass, List.mem_append, List.mem_cons, List.mem_singleton,
    List.mem_flatten, List.mem_map, List.not_mem_nil, or_false] at hc
  rcases hc with (((rfl | rfl | rfl) | ⟨l, ⟨obj, _, rfl⟩, hl⟩) | rfl | rfl) <;>
    try rfl
  unfold shadow_draw at hl
  split_ifs at hl
  · simp only [List.mem_cons, List.mem_singleton, List.not_mem_nil, or_false] at hl
    rcases hl with rfl | rfl <;> rfl
  · simp at hl

/-- The calls of `run_skybox_pass`. -/
theorem run_skybox_pass_calls (L : Linalg) (skybox : Option ProceduralSky) (d : CameraData)
    (gl : GlState) : ∀ c ∈ (run_skybox_pass L skybox d gl).2, c.inViewLoop = true := by
  intro c hc
  cases skybox with
  | none => simp [run_skybox_pass] at hc
  | some sky =>
    cases hdt : gl.isEnabled .GL_DEPTH_TEST <;>
      simp [run_skybox_pass, hdt, Op.seq, Op.andThen, Op.call, Op.nop, glEnable, glDisable] at hc <;>
      rcases hc with rfl | rfl | rfl <;> rfl

/-- The calls of `run_forward_pass`. -/
theorem run_forward_pass_calls (L : Linalg) (renderSet : List Renderable) (d : CameraData)
    (gl : GlState) : ∀ c ∈ (run_forward_pass L renderSet d gl).2, c.inViewLoop = true := by
  refine Op.seq_calls_forall _ _ ?_ gl
  intro op hop s c hc
  simp only [List.mem_cons, List.mem_singleton, List.not_mem_nil, or_false] at hop
  rcases hop with rfl | rfl | rfl | rfl | rfl | rfl | rfl
  · simp [glEnable] at hc; subst hc; rfl
  · simp [Op.call] at hc; subst hc; rfl
  · simp [Op.call] at hc; subst hc; rfl
  · simp [Op.call] at hc; subst hc; rfl
  · refine Op.seq_calls_forall (fun c => c.inViewLoop = true) _ ?_ s c hc
    intro op hop s c hc
    obtain ⟨x, _, rfl⟩ := List.mem_map.mp hop
    by_cases hmr : x.get_material.isMetallicRoughness = true <;>
      simp [draw_with_material, update_per_object, Op.seq, Op.andThen, Op.call, Op.nop, hmr] at hc <;>
      rcases hc with rfl | rfl | rfl | rfl | rfl <;> rfl
  · refine Op.seq_calls_forall (fun c => c.inViewLoop = true) _ ?_ s c hc
    intro op hop s c hc
    obtain ⟨x, _, rfl⟩ := List.mem_map.mp hop
    simp [draw_default, update_per_object, Op.seq, Op.andThen, Op.call, Op.nop] at hc
    rcases hc with rfl | rfl <;> rfl
  · simp [Op.call] at hc; subst hc; rfl

/-- The calls of one iteration of the per-view loop. -/
theorem render_view_calls (L : Linalg) (eyeIdx : Fin NumEyes)
    (s : PhysicallyBasedRenderer NumEyes × GlState) :
    ∀ c ∈ (render_view L eyeIdx s).2, c.inViewLoop = true := by
  refine Op.seq_calls_forall _ _ ?_ s.2
  intro op hop gl c hc
  simp only [List.mem_cons, List.mem_singleton, List.not_mem_nil, or_false] at hop
  rcases hop with rfl | rfl | rfl | rfl | rfl | rfl | rfl | rfl | rfl | rfl | rfl | rfl
  · simp [Op.call] at hc; subst hc; rfl
  · simp [glEnable] at hc; subst hc; rfl
  · simp [Op.call] at hc; subst hc; rfl
  · simp [Op.call] at hc; subst hc; rfl
  · simp [Op.call] at hc; subst hc; rfl
  · simp [Op.call] at hc; subst hc; rfl
  · simp [Op.call] at hc; subst hc; rfl
  · exact run_skybox_pass_calls L _ _ gl c hc
  · exact run_forward_pass_calls L _ _ gl c hc
  · simp [glDisable] at hc; subst hc; rfl
  · simp [Op.call] at hc; subst hc; rfl
  · simp [Op.call] at hc; subst hc; rfl

/-- The calls of `run_post_pass`. -/
theorem run_post_pass_calls (d : CameraData) (gl : GlState) :
    ∀ c ∈ (run_post_pass d gl).2, c.inPostPass = true := by
  cases hcf : gl.isEnabled .GL_CULL_FACE <;> cases hdt : gl.isEnabled .GL_DEPTH_TEST <;>
    simp [run_post_pass, run_bloom_pass, hcf, hdt, Op.seq, Op.andThen, Op.call, Op.nop,
      glEnable, glDisable, Call.inPostPass]

/-! ## The per-scene block -/

/-- One more iteration of a counting loop. -/
theorem forLoop_succ {σ : Type} (n : Nat) (body : Nat → σ → σ) (init : σ) :
    forLoop (n + 1) body init = body n (forLoop n body init) := by
  simp [forLoop, List.range_succ, List.foldl_append]

/-- What every iteration of a counting loop preserves holds after the loop. -/
theorem forLoop_invariant {σ : Type} (P : σ → Prop) (body : Nat → σ → σ)
    (h : ∀ i s, P s → P (body i s)) (n : Nat) (init : σ) (h0 : P init) :
    P (forLoop n body init) := by
  induction n with
  | zero => exact h0
  | succ n ih => rw [forLoop_succ]; exact h n _ ih

/-- The copy loop over an array: after `k` iterations the first `k` slots hold the first `k`
lights and the other slots are as before. -/
theorem forLoop_copy (lights arr : List point_light) (k : Nat) (hk : k ≤ lights.length)
    (ha : k ≤ arr.length) :
    forLoop k (fun i a => a.set i (lights.getD i point_light.zero)) arr
      = lights.take k ++ arr.drop k := by
  induction k with
  | zero => simp [forLoop]
  | succ k ih =>
    rw [forLoop_succ, ih (by omega) (by omega)]
    have hlen : (lights.take k).length = k := by simp; omega
    rw [List.set_append_right _ _ (by omega), hlen, Nat.sub_self]
    have hd : arr.drop k = arr[k] :: arr.drop (k + 1) := by
      rw [List.drop_eq_getElem_cons]
    rw [hd, List.set_cons_zero, List.take_succ]
    have hg : lights[k]? = some (lights.getD k point_light.zero) := by
      rw [List.getD_eq_getElem?_getD, List.getElem?_eq_getElem (by omega)]
      rfl
    rw [hg]
    simp

/-- The copy loop of `render_frame` acts on the array of point lights only. -/
theorem forLoop_point_lights (lights : List point_light) (n : Nat) (b : per_scene) :
    forLoop n
        (fun i b => { b with point_lights := b.point_lights.set i (lights.getD i point_light.zero) }) b
      = { b with point_lights :=
            forLoop n (fun i a => a.set i (lights.getD i point_light.zero)) b.point_lights } := by
  induction n with
  | zero => rfl
  | succ n ih => rw [forLoop_succ, forLoop_succ, ih]

/-- The count field of the block assembled by `render_frame` is the size of the light list. -/
theorem assemble_per_scene_activePointLights (L : Linalg) (K : Constants) (time : float)
    (r : PhysicallyBasedRenderer NumEyes) :
    (assemble_per_scene L K time r).activePointLights = r.pointLights.length := by
  simp only [assemble_per_scene, forLoop_point_lights]

/-- The array of point lights of the block assembled by `render_frame`. -/
theorem assemble_per_scene_point_lights (L : Linalg) (K : Constants) (time : float)
    (r : PhysicallyBasedRenderer NumEyes) :
    (assemble_per_scene L K time r).point_lights
      = r.pointLights.take K.MAX_POINT_LIGHTS
        ++ List.replicate (K.MAX_POINT_LIGHTS - r.pointLights.length) point_light.zero := by
  simp only [assemble_per_scene, forLoop_point_lights]
  rw [forLoop_copy _ _ _ (Nat.min_le_left _ _) (by simp [per_scene.zero])]
  simp only [per_scene.zero, List.drop_replicate]
  congr 1
  · rcases Nat.le_total r.pointLights.length K.MAX_POINT_LIGHTS with h | h
    · rw [Nat.min_eq_left h, List.take_of_length_le h, List.take_of_length_le (Nat.le_refl _)]
    · rw [Nat.min_eq_right h]
  · congr 1
    omega

/-- The cascade loop leaves the point lights and their count as they are. -/
theorem copy_cascades_lights (K : Constants) (shadow : StableCascadedShadowPass) (b : per_scene) :
    (copy_cascades K shadow b).point_lights = b.point_lights ∧
      (copy_cascades K shadow b).activePointLights = b.activePointLights := by
  unfold copy_cascades
  refine forLoop_invariant
    (fun b' : per_scene =>
      b'.point_lights = b.point_lights ∧ b'.activePointLights = b.activePointLights)
    _ ?_ _ _ ⟨rfl, rfl⟩
  intro i b' h
  exact h

/-- The shadow stage leaves the point lights and their count as they are. -/
theorem shadow_stage_lights (L : Linalg) (C : Collaborators) (K : Constants)
    (r : PhysicallyBasedRenderer NumEyes) (b : per_scene) :
    (shadow_stage L C K r b).1.2.point_lights = b.point_lights ∧
      (shadow_stage L C K r b).1.2.activePointLights = b.activePointLights := by
  unfold shadow_stage
  split_ifs
  · exact copy_cascades_lights K _ b
  · exact ⟨rfl, rfl⟩

/-- The calls of the shadow stage. -/
theorem shadow_stage_calls (L : Linalg) (C : Collaborators) (K : Constants)
    (r : PhysicallyBasedRenderer NumEyes) (b : per_scene) :
    ∀ c ∈ (shadow_stage L C K r b).2, c.inShadowPass = true := by
  unfold shadow_stage
  split_ifs
  · exact run_shadow_pass_calls L C r _
  · simp

/-- The calls of the per-view loop. -/
theorem render_views_calls (L : Linalg) (l : List (Fin NumEyes))
    (s : PhysicallyBasedRenderer NumEyes × GlState) :
    ∀ c ∈ (Op.seq (l.map (render_view L)) s).2, c.inViewLoop = true := by
  refine Op.seq_calls_forall (fun c => c.inViewLoop = true) _ ?_ s
  intro op hop s'
  obtain ⟨i, _, rfl⟩ := List.mem_map.mp hop
  exact render_view_calls L i s'

/-- The calls of the post loop. -/
theorem run_post_passes_calls (f : Fin NumEyes → CameraData) (l : List (Fin NumEyes))
    (gl : GlState) :
    ∀ c ∈ (Op.seq (l.map (fun eyeIdx => run_post_pass (f eyeIdx))) gl).2,
      c.inPostPass = true := by
  refine Op.seq_calls_forall (fun c => c.inPostPass = true) _ ?_ gl
  intro op hop gl'
  obtain ⟨i, _, rfl⟩ := List.mem_map.mp hop
  exact run_post_pass_calls _ gl'

/-- One frame uploads the per-scene block once: the block assembled at the start of the
frame, with the cascade data added by the shadow stage. -/
theorem per_scene_uploads_render_frame (L : Linalg) (C : Collaborators) (K : Constants)
    (time : float) (s : PhysicallyBasedRenderer NumEyes × GlState) :
    per_scene_uploads (render_frame L C K time s).2
      = [(shadow_stage L C K s.1 (assemble_per_scene L K time s.1)).1.2] := by
  have hsh : List.filterMap Call.perScene
      (shadow_stage L C K s.1 (assemble_per_scene L K time s.1)).2 = [] := by
    rw [List.filterMap_eq_nil_iff]
    intro c hc
    have := shadow_stage_calls L C K s.1 _ c hc
    revert this
    cases c <;> simp [Call.inShadowPass, Call.perScene]
  have hv : ∀ (l : List (Fin NumEyes)) (s' : PhysicallyBasedRenderer NumEyes × GlState),
      List.filterMap Call.perScene (Op.seq (l.map (render_view L)) s').2 = [] := by
    intro l s'
    rw [List.filterMap_eq_nil_iff]
    intro c hc
    have := render_views_calls L l s' c hc
    revert this
    cases c <;> simp [Call.inViewLoop, Call.perScene]
  have hp : ∀ (f : Fin NumEyes → CameraData) (l : List (Fin NumEyes)) (gl : GlState),
      List.filterMap Call.perScene
        (Op.seq (l.map (fun eyeIdx => run_post_pass (f eyeIdx))) gl).2 = [] := by
    intro f l gl
    rw [List.filterMap_eq_nil_iff]
    intro c hc
    have := run_post_passes_calls f l gl c hc
    revert this
    cases c <;> simp [Call.inPostPass, Call.perScene]
  simp only [render_frame, render_frame_forward, render_frame_post, Op.andThen, per_scene_uploads,
    List.filterMap_append, hsh, hv, hp]
  simp [Op.seq, Op.andThen, Op.call, Op.nop, glEnable, glDisable, Call.perScene]

/-- The count and the array of point lights of the per-scene block uploaded by a frame. -/
theorem render_frame_uploaded_lights (L : Linalg) (C : Collaborators) (K : Constants)
    (time : float) (s : PhysicallyBasedRenderer NumEyes × GlState) :
    (per_scene_uploads (render_frame L C K time s).2).map (fun b => b.activePointLights)
      = [s.1.pointLights.length] ∧
    (per_scene_uploads (render_frame L C K time s).2).map (fun b => b.point_lights)
      = [s.1.pointLights.take K.MAX_POINT_LIGHTS
          ++ List.replicate (K.MAX_POINT_LIGHTS - s.1.pointLights.length) point_light.zero] := by
  rw [per_scene_uploads_render_frame]
  simp only [List.map_cons, List.map_nil]
  rw [(shadow_stage_lights L C K s.1 _).1, (shadow_stage_lights L C K s.1 _).2,
    assemble_per_scene_activePointLights, assemble_per_scene_point_lights]
  exact ⟨rfl, rfl⟩

/-- The method `add_light` appends to the list of point lights. -/
theorem foldl_add_light (lights : List point_light) (r : PhysicallyBasedRenderer NumEyes) :
    (lights.foldl add_light r).pointLights = r.pointLights ++ lights := by
  induction lights generalizing r with
  | nil => simp
  | cons l rest ih => rw [List.foldl_cons, ih]; simp [add_light]

/-- C5, on the code: with `MAX_POINT_LIGHTS = 4` and five point lights added before the frame,
the active-point-light count of the per-scene block uploaded by `render_frame` is 5, not
`min(5, 4) = 4`; the array of the block holds the first four lights only. -/
theorem render_frame_activePointLights_above_cap :
    (per_scene_uploads (render_frame Example.linalg Example.collaborators ⟨4, 4⟩ 0
        (Example.stereo false []
          [Example.light 1, Example.light 2, Example.light 3, Example.light 4, Example.light 5],
          Example.flags)).2).map (fun b => b.activePointLights) = [5] ∧
    (per_scene_uploads (render_frame Example.linalg Example.collaborators ⟨4, 4⟩ 0
        (Example.stereo false []
          [Example.light 1, Example.light 2, Example.light 3, Example.light 4, Example.light 5],
          Example.flags)).2).map (fun b => b.point_lights)
      = [[Example.light 1, Example.light 2, Example.light 3, Example.light 4]] ∧
    min 5 4 = 4 := by
  refine ⟨?_, ?_, by decide⟩
  · exact (render_frame_uploaded_lights _ _ _ _ _).1
  · exact (render_frame_uploaded_lights _ _ _ _ _).2

/-- C6: for every list of point lights held by the renderer, the point-light array of the
per-scene block uploaded by `render_frame` is the first `MAX_POINT_LIGHTS` lights of the list,
in list order, followed by zero-initialised entries up to `MAX_POINT_LIGHTS` entries in all
(slot `i` holds the `i`-th light for `i < min(n, MAX_POINT_LIGHTS)`, lights at later positions
are not copied); and the list is in `add_light` order: lights added with `add_light` are
appended to it. -/
theorem render_frame_point_lights (L : Linalg) (C : Collaborators) (K : Constants)
    (time : float) (r : PhysicallyBasedRenderer NumEyes) (gl : GlState)
    (lights : List point_light) :
    (lights.foldl add_light r).pointLights = r.pointLights ++ lights ∧
    (per_scene_uploads (render_frame L C K time (r, gl)).2).map (fun b => b.point_lights)
      = [r.pointLights.take K.MAX_POINT_LIGHTS
          ++ List.replicate (K.MAX_POINT_LIGHTS - r.pointLights.length) point_light.zero] :=
  ⟨foldl_add_light lights r, (render_frame_uploaded_lights L C K time (r, gl)).2⟩

/-! ## State and calls of the loops of a frame -/

/-- A property of the state that every statement of a block preserves holds after the block,
and a property of calls that every statement guarantees from such states holds of every call
of the block. -/
theorem Op.seq_invariant {σ : Type} (I : σ → Prop) (P : Call → Prop) (ops : List (Op σ))
    (h : ∀ op ∈ ops, ∀ s, I s → I (op s).1 ∧ ∀ c ∈ (op s).2, P c) (s : σ) (hs : I s) :
    I (Op.seq ops s).1 ∧ ∀ c ∈ (Op.seq ops s).2, P c := by
  induction ops generalizing s with
  | nil => exact ⟨hs, by intro c hc; simp [Op.seq, Op.nop] at hc⟩
  | cons a rest ih =>
    obtain ⟨h1, h2⟩ := h a (List.mem_cons_self _ _) s hs
    obtain ⟨h3, h4⟩ := ih (fun op hop => h op (List.mem_cons_of_mem _ hop)) (a s).1 h1
    refine ⟨h3, ?_⟩
    intro c hc
    simp only [Op.seq, Op.andThen, List.mem_append] at hc
    rcases hc with hc | hc
    · exact h2 c hc
    · exact h4 c hc

/-- One iteration of the per-view loop changes the renderer only in the cached matrices of
the camera of that view. -/
theorem render_view_state (L : Linalg) (eyeIdx : Fin NumEyes)
    (s : PhysicallyBasedRenderer NumEyes × GlState) :
    (render_view L eyeIdx s).1.1.renderSet = s.1.renderSet ∧
    (render_view L eyeIdx s).1.1.pointLights = s.1.pointLights ∧
    (render_view L eyeIdx s).1.1.skybox = s.1.skybox ∧
    ∀ i, ((render_view L eyeIdx s).1.1.cameras i).index = (s.1.cameras i).index ∧
      ((render_view L eyeIdx s).1.1.cameras i).pose = (s.1.cameras i).pose ∧
      ((render_view L eyeIdx s).1.1.cameras i).projectionMatrix
        = (s.1.cameras i).projectionMatrix := by
  refine ⟨rfl, rfl, rfl, ?_⟩
  intro i
  by_cases h : i = eyeIdx
  · subst h; simp [render_view]
  · simp [render_view, Function.update_noteq h]

/-- The per-view loop leaves the index, pose and projection of every camera as they are. -/
theorem render_views_cameras (L : Linalg) (l : List (Fin NumEyes))
    (s : PhysicallyBasedRenderer NumEyes × GlState) (i : Fin NumEyes) :
    ((Op.seq (l.map (render_view L)) s).1.1.cameras i).index = (s.1.cameras i).index ∧
    ((Op.seq (l.map (render_view L)) s).1.1.cameras i).pose = (s.1.cameras i).pose ∧
    ((Op.seq (l.map (render_view L)) s).1.1.cameras i).projectionMatrix
      = (s.1.cameras i).projectionMatrix := by
  refine (Op.seq_invariant
    (fun st : PhysicallyBasedRenderer NumEyes × GlState =>
      (st.1.cameras i).index = (s.1.cameras i).index ∧
      (st.1.cameras i).pose = (s.1.cameras i).pose ∧
      (st.1.cameras i).projectionMatrix = (s.1.cameras i).projectionMatrix)
    (fun _ => True) _ ?_ s ⟨rfl, rfl, rfl⟩).1
  intro op hop st hst
  obtain ⟨k, _, rfl⟩ := List.mem_map.mp hop
  obtain ⟨h1, h2, h3⟩ := (render_view_state L k st).2.2.2 i
  exact ⟨⟨h1.trans hst.1, h2.trans hst.2.1, h3.trans hst.2.2⟩, fun _ _ => trivial⟩

/-- With an empty render set, one iteration of the per-view loop makes no draw call. -/
theorem render_view_draws_nothing (L : Linalg) (eyeIdx : Fin NumEyes)
    (s : PhysicallyBasedRenderer NumEyes × GlState) (hs : s.1.renderSet = []) :
    ∀ c ∈ (render_view L eyeIdx s).2, c.drawable = none := by
  refine Op.seq_calls_forall (fun c => c.drawable = none) _ ?_ s.2
  intro op hop gl c hc
  simp only [List.mem_cons, List.mem_singleton, List.not_mem_nil, or_false] at hop
  rcases hop with rfl | rfl | rfl | rfl | rfl | rfl | rfl | rfl | rfl | rfl | rfl | rfl
  · simp [Op.call] at hc; subst hc; rfl
  · simp [glEnable] at hc; subst hc; rfl
  · simp [Op.call] at hc; subst hc; rfl
  · simp [Op.call] at hc; subst hc; rfl
  · simp [Op.call] at hc; subst hc; rfl
  · simp [Op.call] at hc; subst hc; rfl
  · simp [Op.call] at hc; subst hc; rfl
  · have := run_skybox_pass_calls L _ _ gl c hc
    revert hc
    cases s.1.skybox with
    | none => simp [run_skybox_pass]
    | some sky =>
      cases hdt : gl.isEnabled .GL_DEPTH_TEST <;>
        simp [run_skybox_pass, hdt, Op.seq, Op.andThen, Op.call, Op.nop, glEnable, glDisable] <;>
        intro hc <;> rcases hc with rfl | rfl | rfl <;> rfl
  · have hd : drawn (run_forward_pass L [] (
        { s.1.cameras eyeIdx with
          viewMatrix := (per_view_of L (s.1.cameras eyeIdx)).view
          viewProjMatrix := (per_view_of L (s.1.cameras eyeIdx)).viewProj } : CameraData) gl).2
        = [] := by
      rw [drawn_run_forward_pass]; rfl
    simp only [Function.update_same, hs] at hc
    exact List.filterMap_eq_nil_iff.mp hd c hc
  · simp [glDisable] at hc; subst hc; rfl
  · simp [Op.call] at hc; subst hc; rfl
  · simp [Op.call] at hc; subst hc; rfl

/-- A frame started with an empty render set makes no draw call. -/
theorem drawn_render_frame_of_empty (L : Linalg) (C : Collaborators) (K : Constants)
    (time : float) (s : PhysicallyBasedRenderer NumEyes × GlState) (hs : s.1.renderSet = []) :
    drawn (render_frame L C K time s).2 = [] := by
  have hsh : drawn (shadow_stage L C K s.1 (assemble_per_scene L K time s.1)).2 = [] := by
    unfold shadow_stage
    split_ifs
    · simp [run_shadow_pass, hs, drawn, Call.drawable]
    · rfl
  have hv : ∀ (l : List (Fin NumEyes)) (s' : PhysicallyBasedRenderer NumEyes × GlState),
      s'.1.renderSet = [] → drawn (Op.seq (l.map (render_view L)) s').2 = [] := by
    intro l s' hs'
    apply List.filterMap_eq_nil_iff.mpr
    refine (Op.seq_invariant
      (fun st : PhysicallyBasedRenderer NumEyes × GlState => st.1.renderSet = [])
      (fun c => c.drawable = none) _ ?_ s' hs').2
    intro op hop st hst
    obtain ⟨k, _, rfl⟩ := List.mem_map.mp hop
    exact ⟨(render_view_state L k st).1.trans hst, render_view_draws_nothing L k st hst⟩
  have hp : ∀ (f : Fin NumEyes → CameraData) (l : List (Fin NumEyes)) (gl : GlState),
      drawn (Op.seq (l.map (fun eyeIdx => run_post_pass (f eyeIdx))) gl).2 = [] := by
    intro f l gl
    apply List.filterMap_eq_nil_iff.mpr
    intro c hc
    have := run_post_passes_calls f l gl c hc
    revert this
    cases c <;> simp [Call.inPostPass, Call.drawable]
  simp only [render_frame, render_frame_forward, render_frame_post, Op.andThen, drawn_append,
    hsh, hp]
  rw [hv]
  · simp [drawn, Op.seq, Op.andThen, Op.call, Op.nop, glEnable, glDisable, Call.drawable]
  · exact hs

/-- C9: for every renderer state, whatever the drawable set and the point-light list at entry,
after `render_frame` returns both are empty; a frame rendered next without resupplying them
makes no draw call and uploads a per-scene block with a light count of zero and a point-light
array of zero-initialised entries. -/
theorem render_frame_clears_inputs (L : Linalg) (C : Collaborators) (K : Constants)
    (time next : float) (s : PhysicallyBasedRenderer NumEyes × GlState) :
    (render_frame L C K time s).1.1.renderSet = [] ∧
    (render_frame L C K time s).1.1.pointLights = [] ∧
    drawn (render_frame L C K next (render_frame L C K time s).1).2 = [] ∧
    (per_scene_uploads (render_frame L C K next (render_frame L C K time s).1).2).map
        (fun b => b.activePointLights) = [0] ∧
    (per_scene_uploads (render_frame L C K next (render_frame L C K time s).1).2).map
        (fun b => b.point_lights) = [List.replicate K.MAX_POINT_LIGHTS point_light.zero] := by
  have h1 : (render_frame L C K time s).1.1.renderSet = [] := rfl
  have h2 : (render_frame L C K time s).1.1.pointLights = [] := rfl
  refine ⟨h1, h2, drawn_render_frame_of_empty L C K next _ h1, ?_, ?_⟩
  · rw [(render_frame_uploaded_lights L C K next _).1, h2]; rfl
  · rw [(render_frame_uploaded_lights L C K next _).2, h2]; simp

/-! ## Order of the resolves and the post passes -/

/-- Every iteration of the per-view loop resolves into the target of its view. -/
theorem resolve_mem_render_view (L : Linalg) (eyeIdx : Fin NumEyes)
    (s : PhysicallyBasedRenderer NumEyes × GlState) :
    Call.resolve eyeIdx.val ∈ (render_view L eyeIdx s).2 := by
  refine Op.mem_seq_calls _ _ (Op.call (.resolve eyeIdx.val)) (by simp) ?_ s.2
  intro gl
  simp [Op.call]

/-- Every post pass runs the bloom pass on the texture named by its camera. -/
theorem bloom_execute_mem_run_post_pass (d : CameraData) (gl : GlState) :
    Call.bloom_execute d.index ∈ (run_post_pass d gl).2 := by
  cases hcf : gl.isEnabled .GL_CULL_FACE <;> cases hdt : gl.isEnabled .GL_DEPTH_TEST <;>
    simp [run_post_pass, run_bloom_pass, hcf, hdt, Op.seq, Op.andThen, Op.call, Op.nop,
      glEnable, glDisable]

/-- The first part of a frame makes no call of a post pass. -/
theorem render_frame_forward_no_post (L : Linalg) (C : Collaborators) (K : Constants)
    (time : float) (s : PhysicallyBasedRenderer NumEyes × GlState) :
    ∀ c ∈ (render_frame_forward L C K time s).2, c.isPost = false := by
  intro c hc
  simp only [render_frame_forward, List.mem_append] at hc
  rcases hc with ((((hc | hc) | hc) | hc) | hc) | hc
  · revert hc
    simp only [Op.seq, Op.andThen, Op.call, Op.nop, glEnable, List.mem_append, List.mem_singleton,
      List.not_mem_nil, or_false]
    intro hc
    rcases hc with rfl | rfl | rfl | rfl | rfl | rfl <;> rfl
  · simp at hc; subst hc; rfl
  · have := shadow_stage_calls L C K s.1 _ c hc
    revert this
    cases c <;> simp [Call.inShadowPass, Call.isPost]
  · simp at hc; rcases hc with rfl | rfl | rfl <;> rfl
  · have := render_views_calls L _ _ c hc
    revert this
    cases c <;> simp [Call.inViewLoop, Call.isPost]
  · simp at hc; subst hc; rfl

/-- The second part of a frame makes no resolve. -/
theorem render_frame_post_no_resolve (s : PhysicallyBasedRenderer NumEyes × GlState) :
    ∀ c ∈ (render_frame_post s).2, c.isResolve = false := by
  intro c hc
  simp only [render_frame_post, List.mem_append] at hc
  rcases hc with (((hc | hc) | hc) | hc) | hc
  · simp at hc; subst hc; rfl
  · have := run_post_passes_calls _ _ _ c hc
    revert this
    cases c <;> simp [Call.inPostPass, Call.isResolve]
  · simp at hc; subst hc; rfl
  · simp [glDisable] at hc; subst hc; rfl
  · simp at hc; subst hc; rfl

/-- C7: the calls of one `render_frame` are the calls of its first part, which ends when the
per-view loop has finished, followed by the calls of its second part, which holds the post
loop. For every view `i` the resolve into the target of view `i` is among the calls of the
first part, and the bloom pass of the post pass of view `i` (on the texture named by the
camera of view `i`) is among the calls of the second part; the first part makes no call of a
post pass and the second part makes no resolve. So every resolve of any view comes before the
first post pass of any view. -/
theorem render_frame_resolves_before_post (L : Linalg) (C : Collaborators) (K : Constants)
    (time : float) (s : PhysicallyBasedRenderer NumEyes × GlState) :
    (render_frame L C K time s).2
      = (render_frame_forward L C K time s).2
        ++ (render_frame_post (render_frame_forward L C K time s).1).2 ∧
    (∀ i : Fin NumEyes, Call.resolve i.val ∈ (render_frame_forward L C K time s).2) ∧
    (render_frame_forward L C K time s).2.all (fun c => !c.isPost) = true ∧
    (∀ i : Fin NumEyes, Call.bloom_execute (s.1.cameras i).index
      ∈ (render_frame_post (render_frame_forward L C K time s).1).2) ∧
    (render_frame_post (render_frame_forward L C K time s).1).2.all (fun c => !c.isResolve)
      = true := by
  refine ⟨rfl, ?_, ?_, ?_, ?_⟩
  · intro i
    simp only [render_frame_forward, List.mem_append]
    refine Or.inl (Or.inr ?_)
    exact Op.mem_seq_calls _ _ (render_view L i)
      (List.mem_map_of_mem _ (List.mem_finRange i)) (resolve_mem_render_view L i) _
  · rw [List.all_eq_true]
    intro c hc
    simp [render_frame_forward_no_post L C K time s c hc]
  · intro i
    have hidx := (render_views_cameras L (List.finRange NumEyes)
      (({ s.1 with shadow := (shadow_stage L C K s.1 (assemble_per_scene L K time s.1)).1.1 } :
          PhysicallyBasedRenderer NumEyes),
        (Op.seq
          [ glEnable .GL_CULL_FACE,
            glEnable .GL_DEPTH_TEST,
            glEnable .GL_FRAMEBUFFER_SRGB,
            Op.call (.glBindBufferBase .per_scene),
            Op.call (.glBindBufferBase .per_view),
            Op.call (.glBindBufferBase .per_object) ] s.2).1) i).1
    simp only [render_frame_post, List.mem_append]
    refine Or.inl (Or.inl (Or.inl (Or.inr ?_)))
    rw [← hidx]
    exact Op.mem_seq_calls _ _
      (run_post_pass ((render_frame_forward L C K time s).1.1.cameras i))
      (List.mem_map.mpr ⟨i, List.mem_finRange i, rfl⟩)
      (bloom_execute_mem_run_post_pass _) _
  · rw [List.all_eq_true]
    intro c hc
    simp [render_frame_post_no_resolve _ c hc]

/-! ## The shadow camera -/

/-- The `float` value of `(a + b) * 0.5f` is the arithmetic mean of `a` and `b` when the sum
and half the sum are `float` values. -/
theorem float.mul_add_half (a b : ℚ) (hs : float.representable (a + b) = true)
    (hm : float.representable ((a + b) / 2) = true) :
    float.mul (float.add (float.finite a) (float.finite b)) (float.finite (1 / 2))
      = float.finite ((a + b) / 2) := by
  simp only [float.representable, decide_eq_true_eq] at hs hm
  simp only [float.add, hs, float.mul]
  rw [show (a + b) * (1 / 2) = (a + b) / 2 by ring]
  exact hm

/-- C8, as stated, fails on the code, which computes `(p0 + p1) * 0.5f` in `float`: with both
eyes at `x = 2^127` the sum overflows and the shadow camera is at `x = +inf`, although the
arithmetic mean `2^127` is a `float` value; with the eyes at `x = 1` and `x = 2^-25` the sum
is rounded to `1` and the shadow camera is at `x = 1/2`, which is not the arithmetic mean. -/
theorem render_frame_stereo_shadow_camera_not_mean :
    (shadowCamera Example.linalg
        (Example.stereoAt ⟨float.finite (2 ^ 127), 0, 0⟩ ⟨float.finite (2 ^ 127), 0, 0⟩
          true [] [])).pose.position = ⟨float.inf false, 0, 0⟩ ∧
    float.representable (((2 : ℚ) ^ 127 + 2 ^ 127) / 2) = true ∧
    (shadowCamera Example.linalg
        (Example.stereoAt ⟨1, 0, 0⟩ ⟨float.finite (1 / 33554432), 0, 0⟩
          true [] [])).pose.position = ⟨float.finite (1 / 2), 0, 0⟩ ∧
    float.representable (1 / 33554432) = true ∧
    ((1 : ℚ) + 1 / 33554432) / 2 ≠ 1 / 2 := by
  decide!

/-- C8, amended: with exactly two views and shadows enabled, the shadow stage of
`render_frame` runs `run_shadow_pass` on the camera `shadowCamera`, whose position is
componentwise the `float` value of `(p0 + p1) * 0.5f` for the eye positions `p0`, `p1` of
the two views (the sum rounded to `float`, then the product rounded to `float`); in every
component in which both eye coordinates are finite and their sum and half their sum are
`float` values, this is the arithmetic mean of the two coordinates. The orientation and
projection are those of view 0, the view matrix is recomputed from the averaged pose and the
view-projection matrix is the product of the projection and that view matrix; the calls of
that `run_shadow_pass` are a contiguous part of the calls of the frame. -/
theorem render_frame_stereo_shadow_camera (L : Linalg) (C : Collaborators) (K : Constants)
    (time : float) (r : PhysicallyBasedRenderer 2) (gl : GlState)
    (h : r.shadow.enabled = true) :
    (shadowCamera L r).pose.position
      = ⟨float.mul (float.add (r.cameras 0).pose.position.x (r.cameras 1).pose.position.x)
          (float.finite (1 / 2)),
         float.mul (float.add (r.cameras 0).pose.position.y (r.cameras 1).pose.position.y)
          (float.finite (1 / 2)),
         float.mul (float.add (r.cameras 0).pose.position.z (r.cameras 1).pose.position.z)
          (float.finite (1 / 2))⟩ ∧
    (∀ a b : ℚ, (r.cameras 0).pose.position.x = float.finite a →
      (r.cameras 1).pose.position.x = float.finite b →
      float.representable (a + b) = true → float.representable ((a + b) / 2) = true →
      (shadowCamera L r).pose.position.x = float.finite ((a + b) / 2)) ∧
    (∀ a b : ℚ, (r.cameras 0).pose.position.y = float.finite a →
      (r.cameras 1).pose.position.y = float.finite b →
      float.representable (a + b) = true → float.representable ((a + b) / 2) = true →
      (shadowCamera L r).pose.position.y = float.finite ((a + b) / 2)) ∧
    (∀ a b : ℚ, (r.cameras 0).pose.position.z = float.finite a →
      (r.cameras 1).pose.position.z = float.finite b →
      float.representable (a + b) = true → float.representable ((a + b) / 2) = true →
      (shadowCamera L r).pose.position.z = float.finite ((a + b) / 2)) ∧
    (shadowCamera L r).pose.orientation = (r.cameras 0).pose.orientation ∧
    (shadowCamera L r).projectionMatrix = (r.cameras 0).projectionMatrix ∧
    (shadowCamera L r).viewMatrix = L.make_view_matrix_from_pose (shadowCamera L r).pose ∧
    (shadowCamera L r).viewProjMatrix
      = L.mul (shadowCamera L r).projectionMatrix (shadowCamera L r).viewMatrix ∧
    shadow_stage L C K r (assemble_per_scene L K time r)
      = (((run_shadow_pass L C r (shadowCamera L r)).1,
          copy_cascades K (run_shadow_pass L C r (shadowCamera L r)).1
            (assemble_per_scene L K time r)),
        (run_shadow_pass L C r (shadowCamera L r)).2) ∧
    (run_shadow_pass L C r (shadowCamera L r)).2 <:+: (render_frame L C K time (r, gl)).2 := by
  refine ⟨rfl, ?_, ?_, ?_, rfl, rfl, rfl, rfl, ?_, ?_⟩
  · intro a b ha hb hs hm
    show float.mul (float.add (r.cameras 0).pose.position.x (r.cameras 1).pose.position.x)
      (float.finite (1 / 2)) = _
    rw [ha, hb]
    exact float.mul_add_half a b hs hm
  · intro a b ha hb hs hm
    show float.mul (float.add (r.cameras 0).pose.position.y (r.cameras 1).pose.position.y)
      (float.finite (1 / 2)) = _
    rw [ha, hb]
    exact float.mul_add_half a b hs hm
  · intro a b ha hb hs hm
    show float.mul (float.add (r.cameras 0).pose.position.z (r.cameras 1).pose.position.z)
      (float.finite (1 / 2)) = _
    rw [ha, hb]
    exact float.mul_add_half a b hs hm
  · simp [shadow_stage, h]
  · simp only [render_frame, render_frame_forward, Op.andThen, shadow_stage, h, if_true]
    exact (((List.infix_append _ _ _).trans (List.prefix_append _ _).isInfix).trans
      (List.prefix_append _ _).isInfix).trans (List.prefix_append _ _).isInfix

/-- C8, amended, at the eye positions `(0, 0, 0)` and `(2, 0, 0)`: the shadow camera is at
`(1, 0, 0)`. -/
theorem render_frame_stereo_shadow_camera_witness :
    (Example.stereo true [] []).shadow.enabled = true ∧
    ((Example.stereo true [] []).cameras 0).pose.position = ⟨0, 0, 0⟩ ∧
    ((Example.stereo true [] []).cameras 1).pose.position = ⟨2, 0, 0⟩ ∧
    (shadowCamera Example.linalg (Example.stereo true [] [])).pose.position = ⟨1, 0, 0⟩ :=
  ⟨rfl, by decide!, by decide!,
    (render_frame_stereo_shadow_camera Example.linalg Example.collaborators ⟨4, 4⟩ 0
      (Example.stereo true [] []) Example.flags rfl).1.trans (by decide!)⟩

/-! ## `add_camera` -/

/-- C10, on the code: for every renderer and every view descriptor whose index equals
`NumEyes`, the assertion `data.index <= NumEyes` of `add_camera` passes and the write
`cameras[data.index] = data` goes past the end of the array of `NumEyes` cameras. For the
other indices the method does what the claim says: an index below `NumEyes` passes the
assertion and replaces exactly that camera, and an index above `NumEyes` fails the
assertion. -/
theorem add_camera_index_numEyes (r : PhysicallyBasedRenderer NumEyes) (data : CameraData) :
    add_camera r { data with index := NumEyes } = AddCameraResult.out_of_bounds_write ∧
    (∀ i : Fin NumEyes,
      add_camera r { data with index := i.val }
        = AddCameraResult.stored
            { r with cameras := Function.update r.cameras i { data with index := i.val } }) ∧
    (∀ k : Nat,
      add_camera r { data with index := NumEyes + 1 + k } = AddCameraResult.assertion_failed) := by
  refine ⟨by simp [add_camera], ?_, ?_⟩
  · intro i
    have h1 : i.val ≤ NumEyes := Nat.le_of_lt i.isLt
    simp [add_camera, h1, i.isLt]
  · intro k
    have h1 : ¬ (NumEyes + 1 + k ≤ NumEyes) := by omega
    simp [add_camera, h1]

/-! ## The draw order does not depend on the order of the input -/

/-- Two lists with the same elements, both ordered pairwise by a relation that is
antisymmetric on these elements, are equal. -/
theorem perm_pairwise_unique {α : Type} {R : α → α → Prop} (l₁ l₂ : List α)
    (hp : l₁.Perm l₂) (h₁ : l₁.Pairwise R) (h₂ : l₂.Pairwise R)
    (hanti : ∀ a ∈ l₁, ∀ b ∈ l₁, R a b → R b a → a = b) : l₁ = l₂ := by
  induction l₁ generalizing l₂ with
  | nil => exact (List.Perm.nil_eq hp)
  | cons a t₁ ih =>
    cases l₂ with
    | nil => exact absurd hp.length_eq (by simp)
    | cons b t₂ =>
      have hab : a = b := by
        have ha : a ∈ b :: t₂ := hp.mem_iff.mp (List.mem_cons_self _ _)
        have hb : b ∈ a :: t₁ := hp.mem_iff.mpr (List.mem_cons_self _ _)
        rcases List.mem_cons.mp ha with h | h
        · exact h
        · rcases List.mem_cons.mp hb with h' | h'
          · exact h'.symm
          · exact hanti a (List.mem_cons_self _ _) b hb
              ((List.pairwise_cons.mp h₁).1 b h') ((List.pairwise_cons.mp h₂).1 a h)
      subst hab
      congr 1
      exact ih t₂ hp.cons_inv (List.pairwise_cons.mp h₁).2 (List.pairwise_cons.mp h₂).2
        (fun x hx y hy => hanti x (List.mem_cons_of_mem _ hx) y (List.mem_cons_of_mem _ hy))

/-- The comparator `materialSortFunc` reads the camera through its eye position only, and
the linear-algebra functions through `distance` only. -/
theorem materialSortFunc_eye (L L' : Linalg) (d d' : CameraData)
    (hL : L.distance = L'.distance) (h : d.pose.position = d'.pose.position) :
    materialSortFunc L d = materialSortFunc L' d' := by
  funext x y
  simp only [materialSortFunc, h, hL]

/-- The comparator `distanceSortFunc` reads the camera through its eye position only, and
the linear-algebra functions through `distance` only. -/
theorem distanceSortFunc_eye (L L' : Linalg) (d d' : CameraData)
    (hL : L.distance = L'.distance) (h : d.pose.position = d'.pose.position) :
    distanceSortFunc L d = distanceSortFunc L' d' := by
  funext x y
  simp only [distanceSortFunc, h, hL]

/-- The drawables drawn by `run_forward_pass` depend on the camera through its eye position
only, on the linear-algebra functions through `distance` only, and not on the device
flags. -/
theorem drawn_run_forward_pass_eye (L L' : Linalg) (renderSet : List Renderable)
    (d d' : CameraData) (gl gl' : GlState) (hL : L.distance = L'.distance)
    (h : d.pose.position = d'.pose.position) :
    drawn (run_forward_pass L renderSet d gl).2 = drawn (run_forward_pass L' renderSet d' gl').2 := by
  rw [drawn_run_forward_pass, drawn_run_forward_pass]
  simp only [materialTraversal, defaultTraversal, materialSortFunc_eye L L' d d' hL h,
    distanceSortFunc_eye L L' d d' hL h]

/-- The drawables drawn by `run_forward_pass` are a permutation of the render set. -/
theorem drawn_run_forward_pass_perm (L : Linalg) (renderSet : List Renderable)
    (d : CameraData) (gl : GlState) :
    (drawn (run_forward_pass L renderSet d gl).2).Perm renderSet := by
  rw [drawn_run_forward_pass]
  have hm : ((materialTraversal L d renderSet).map Subtype.val).Perm
      (renderSet.filter (fun obj => obj.material.isSome)) := by
    rw [← bucket_fst]
    exact (priority_queue.drain_perm (materialSortFunc L d) _).map _
  have hd : (defaultTraversal L d renderSet).Perm
      (renderSet.filter (fun obj => !obj.material.isSome)) := by
    rw [← bucket_snd]
    exact priority_queue.drain_perm (distanceSortFunc L d) _
  exact (hm.append hd).trans (List.filter_append_perm _ renderSet)

/-- C11, as stated, fails on the code when a computed distance is NaN: with the eye at the
origin, a drawable without a material at distance 1 and one whose position has a NaN
coordinate (its computed distance is NaN, so the two distances are different and neither is
less than the other), `run_forward_pass` draws the two drawables in the order of the input,
and the reversed input is drawn in the reverse order. With two elements the queue makes one
comparison when the second is pushed, between the first and the second; it is false in both
input orders, so the first one pushed stays on top. -/
theorem run_forward_pass_order_depends_on_input_nan :
    [Example.withoutMaterial ⟨1, 0, 0⟩, Example.withoutMaterial ⟨float.nan, 0, 0⟩].Perm
      [Example.withoutMaterial ⟨float.nan, 0, 0⟩, Example.withoutMaterial ⟨1, 0, 0⟩] ∧
    Example.linalg.distance (Example.camera 0 ⟨0, 0, 0⟩).pose.position
        (Example.withoutMaterial ⟨1, 0, 0⟩).pose.position = 1 ∧
    Example.linalg.distance (Example.camera 0 ⟨0, 0, 0⟩).pose.position
        (Example.withoutMaterial ⟨float.nan, 0, 0⟩).pose.position = float.nan ∧
    drawn (run_forward_pass Example.linalg
        [Example.withoutMaterial ⟨1, 0, 0⟩, Example.withoutMaterial ⟨float.nan, 0, 0⟩]
        (Example.camera 0 ⟨0, 0, 0⟩) Example.flags).2
      = [Example.withoutMaterial ⟨1, 0, 0⟩, Example.withoutMaterial ⟨float.nan, 0, 0⟩] ∧
    drawn (run_forward_pass Example.linalg
        [Example.withoutMaterial ⟨float.nan, 0, 0⟩, Example.withoutMaterial ⟨1, 0, 0⟩]
        (Example.camera 0 ⟨0, 0, 0⟩) Example.flags).2
      = [Example.withoutMaterial ⟨float.nan, 0, 0⟩, Example.withoutMaterial ⟨1, 0, 0⟩] := by
  refine ⟨List.Perm.swap _ _ _, ?_, ?_, ?_, ?_⟩ <;> decide!

/-- C11, amended: the order in which `run_forward_pass` draws depends only on the drawable
set, the eye position and the material ids and computed distances. For two render sets that
are permutations of each other, in which no computed distance to the eye is NaN and no two
drawables have both the same material id (or both no material) and the same computed `float`
distance to the eye, for two cameras with the same eye position and the same `distance`
function, the drawables are drawn in the same order, whatever the other linear-algebra
functions and the device flags; in particular repeated invocations on the same input draw in
the same order. -/
theorem run_forward_pass_order_input_independent (L L' : Linalg) (d d' : CameraData)
    (gl gl' : GlState) (l₁ l₂ : List Renderable) (hperm : l₁.Perm l₂)
    (hL : L.distance = L'.distance) (heye : d.pose.position = d'.pose.position)
    (hnan : ∀ x ∈ l₁, (L.distance d.pose.position x.pose.position).isNaN = false)
    (hties : l₁.Pairwise (fun x y =>
      ¬ (x.material.map Material.id = y.material.map Material.id ∧
        L.distance d.pose.position x.pose.position
          = L.distance d.pose.position y.pose.position))) :
    drawn (run_forward_pass L l₁ d gl).2 = drawn (run_forward_pass L' l₂ d' gl').2 := by
  rw [← drawn_run_forward_pass_eye L L' l₂ d d' gl gl' hL heye]
  have hd₁ := drawn_run_forward_pass_perm L l₁ d gl
  have hd₂ := drawn_run_forward_pass_perm L l₂ d gl
  have hnan₂ : ∀ x ∈ l₂, (L.distance d.pose.position x.pose.position).isNaN = false :=
    fun x hx => hnan x (hperm.mem_iff.mpr hx)
  have hp : ∀ l : List Renderable,
      (∀ x ∈ l, (L.distance d.pose.position x.pose.position).isNaN = false) →
      (drawn (run_forward_pass L l d gl).2).Pairwise (fun x y =>
        ((∀ mx my, x.material = some mx → y.material = some my → mx.id ≤ my.id) ∧
          (x.material = none → y.material = none)) ∧
        (∀ mx my, x.material = some mx → y.material = some my → mx.id = my.id →
          float.lt (L.distance d.pose.position x.pose.position)
            (L.distance d.pose.position y.pose.position) = false) ∧
        (x.material = none →
          float.lt (L.distance d.pose.position x.pose.position)
            (L.distance d.pose.position y.pose.position) = false)) := by
    intro l hl
    exact List.Pairwise.and (drawn_run_forward_pass_pairwise L l d gl)
      (List.Pairwise.and
        (drawn_run_forward_pass_pairwise_material L l d gl (fun x hx _ => hl x hx))
        (drawn_run_forward_pass_pairwise_default L l d gl (fun x hx _ => hl x hx)))
  refine perm_pairwise_unique _ _ (hd₁.trans (hperm.trans hd₂.symm)) (hp l₁ hnan) (hp l₂ hnan₂) ?_
  intro a ha b hb hab hba
  by_contra hne
  have hsymm : Symmetric (fun x y : Renderable =>
      ¬ (x.material.map Material.id = y.material.map Material.id ∧
        L.distance d.pose.position x.pose.position
          = L.distance d.pose.position y.pose.position)) := by
    intro x y h hxy
    exact h ⟨hxy.1.symm, hxy.2.symm⟩
  have ha' := hd₁.mem_iff.mp ha
  have hb' := hd₁.mem_iff.mp hb
  have ht := hties.forall hsymm ha' hb' hne
  apply ht
  cases hma : a.material with
  | none =>
    have h1 := hab.1.2 hma
    rw [h1]
    exact ⟨rfl, float.eq_of_not_lt _ _ (hnan a ha') (hnan b hb') (hab.2.2 hma) (hba.2.2 h1)⟩
  | some ma =>
    cases hmb : b.material with
    | none =>
      have h2 := hba.1.2 hmb
      rw [hma] at h2
      simp at h2
    | some mb =>
      have h1 := hab.1.1 ma mb hma hmb
      have h2 := hba.1.1 mb ma hmb hma
      have hid : ma.id = mb.id := Nat.le_antisymm h1 h2
      exact ⟨by simp [hid], float.eq_of_not_lt _ _ (hnan a ha') (hnan b hb')
        (hab.2.1 ma mb hma hmb hid) (hba.2.1 mb ma hmb hma hid.symm)⟩

/-- C11, amended, at a concrete scene: a render set of three drawables and a permutation of
it are drawn in the same order. -/
theorem run_forward_pass_order_input_independent_witness :
    [Example.withMaterial 2 ⟨1, 0, 0⟩, Example.withMaterial 1 ⟨2, 0, 0⟩,
        Example.withoutMaterial ⟨3, 0, 0⟩].Perm
      [Example.withoutMaterial ⟨3, 0, 0⟩, Example.withMaterial 1 ⟨2, 0, 0⟩,
        Example.withMaterial 2 ⟨1, 0, 0⟩] ∧
    drawn (run_forward_pass Example.linalg
        [Example.withMaterial 2 ⟨1, 0, 0⟩, Example.withMaterial 1 ⟨2, 0, 0⟩,
          Example.withoutMaterial ⟨3, 0, 0⟩]
        (Example.camera 0 ⟨0, 0, 0⟩) Example.flags).2
      = drawn (run_forward_pass Example.linalg
        [Example.withoutMaterial ⟨3, 0, 0⟩, Example.withMaterial 1 ⟨2, 0, 0⟩,
          Example.withMaterial 2 ⟨1, 0, 0⟩]
        (Example.camera 1 ⟨0, 0, 0⟩) Example.flags).2 :=
  ⟨by decide!,
    run_forward_pass_order_input_independent Example.linalg Example.linalg
      (Example.camera 0 ⟨0, 0, 0⟩) (Example.camera 1 ⟨0, 0, 0⟩) Example.flags Example.flags _ _
      (by decide!) rfl rfl (by decide!) (by decide!)⟩

/-! ## The shadow pass -/

/-- The loop of `run_shadow_pass` makes, for each drawable that casts a shadow and in input
order, the upload of its model matrix followed by its draw, and nothing else. -/
theorem shadow_draw_flatten (L : Linalg) (renderSet : List Renderable) :
    (renderSet.map (shadow_draw L)).flatten
      = ((renderSet.filter (fun obj => obj.castsShadow)).map (fun obj =>
          [Call.shadow_uniform_modelShadowMatrix
              (L.mul (L.matrix obj.pose) (L.make_scaling_matrix obj.scale)),
            Call.draw obj])).flatten := by
  induction renderSet with
  | nil => rfl
  | cons obj rest ih =>
    by_cases h : obj.castsShadow = true
    · simp [shadow_draw, h, List.filter_cons, ih]
    · simp [shadow_draw, h, List.filter_cons, ih]

/-- The drawables drawn by the loop of `run_shadow_pass`. -/
theorem drawn_shadow_draw_flatten (L : Linalg) (renderSet : List Renderable) :
    drawn (renderSet.map (shadow_draw L)).flatten
      = renderSet.filter (fun obj => obj.castsShadow) := by
  induction renderSet with
  | nil => rfl
  | cons obj rest ih =>
    rw [List.map_cons, List.flatten_cons, drawn_append, ih]
    by_cases h : obj.castsShadow = true
    · simp [shadow_draw, h, List.filter_cons, drawn, Call.drawable]
    · simp [shadow_draw, h, List.filter_cons, drawn]

/-- C14: the calls of `run_shadow_pass` are the call of `update_cascades`, `pre_draw`, then
for each drawable of the render set whose `castsShadow` flag is true, in input order and once
each, the upload of its model matrix (pose matrix times scale matrix) followed by its draw,
with no material call in between, then `post_draw`. The sequence of drawables it draws is
exactly the sub-list of the render set whose `castsShadow` flag is true; no drawable with
`castsShadow = false` is drawn. -/
theorem run_shadow_pass_draws_shadow_casters (L : Linalg) (C : Collaborators)
    (r : PhysicallyBasedRenderer NumEyes) (d : CameraData) :
    (run_shadow_pass L C r d).2
      = [Call.shadow_update_cascades (L.make_view_matrix_from_pose d.pose)
            (L.near_far_clip_from_projection d.projectionMatrix).x
            (L.near_far_clip_from_projection d.projectionMatrix).y
            (L.aspect_from_projection d.projectionMatrix)
            (L.vfov_from_projection d.projectionMatrix) r.sunlight.direction,
          Call.shadow_pre_draw, Call.gl_check_error]
        ++ ((r.renderSet.filter (fun obj => obj.castsShadow)).map (fun obj =>
            [Call.shadow_uniform_modelShadowMatrix
                (L.mul (L.matrix obj.pose) (L.make_scaling_matrix obj.scale)),
              Call.draw obj])).flatten
        ++ [Call.shadow_post_draw, Call.gl_check_error] ∧
    drawn (run_shadow_pass L C r d).2 = r.renderSet.filter (fun obj => obj.castsShadow) := by
  constructor
  · simp only [run_shadow_pass, shadow_draw_flatten]
  · simp only [run_shadow_pass, drawn_append, drawn_shadow_draw_flatten]
    simp [drawn, Call.drawable]

/-! ## The sub-passes that switch device flags off -/

/-- C16: for every state of the device flags at entry, `run_skybox_pass` leaves the flags as
it found them, with or without a skybox, so the depth-test flag after it equals its value at
entry; `run_post_pass` leaves the flags as it found them, so the face-culling and depth-test
flags after it equal their values at entry. With a skybox set, the calls of `run_skybox_pass`
are `glDisable(GL_DEPTH_TEST)`, the skybox `render`, and `glEnable(GL_DEPTH_TEST)` if depth
testing was enabled at entry, and the depth-test flag is off when `render` is called. The
calls of `run_post_pass` are the two `glDisable`, the bloom pass, and the `glEnable` of each
flag that was enabled at entry, and both flags are off when the bloom pass is called. The
flags that the passes return are those obtained by replaying their calls. -/
theorem sub_passes_restore_flags (L : Linalg) (skybox : Option ProceduralSky)
    (sky : ProceduralSky) (d : CameraData) (gl : GlState) :
    (run_skybox_pass L skybox d gl).1 = gl ∧
    (run_skybox_pass L skybox d gl).1.depthTest = gl.depthTest ∧
    replay (run_skybox_pass L skybox d gl).2 gl = (run_skybox_pass L skybox d gl).1 ∧
    (run_skybox_pass L (some sky) d gl).2
      = [Call.glDisable .GL_DEPTH_TEST]
        ++ [Call.skybox_render d.viewProjMatrix d.pose.position
            (L.near_far_clip_from_projection d.projectionMatrix).y]
        ++ (if gl.depthTest then [Call.glEnable .GL_DEPTH_TEST] else []) ∧
    (replay [Call.glDisable .GL_DEPTH_TEST] gl).depthTest = false ∧
    (run_post_pass d gl).1 = gl ∧
    (run_post_pass d gl).1.cullFace = gl.cullFace ∧
    (run_post_pass d gl).1.depthTest = gl.depthTest ∧
    replay (run_post_pass d gl).2 gl = (run_post_pass d gl).1 ∧
    (run_post_pass d gl).2
      = [Call.glDisable .GL_CULL_FACE, Call.glDisable .GL_DEPTH_TEST]
        ++ [Call.bloom_execute d.index, Call.bloom_blit d.index, Call.gl_check_error]
        ++ (if gl.cullFace then [Call.glEnable .GL_CULL_FACE] else [])
        ++ (if gl.depthTest then [Call.glEnable .GL_DEPTH_TEST] else []) ∧
    (replay [Call.glDisable .GL_CULL_FACE, Call.glDisable .GL_DEPTH_TEST] gl).cullFace = false ∧
    (replay [Call.glDisable .GL_CULL_FACE, Call.glDisable .GL_DEPTH_TEST] gl).depthTest
      = false := by
  rcases gl with ⟨cf, dt, fs, ms⟩
  cases skybox <;> cases cf <;> cases dt <;>
    simp [run_skybox_pass, run_post_pass, run_bloom_pass, Op.seq, Op.andThen, Op.call, Op.nop,
      glEnable, glDisable, GlState.isEnabled, GlState.setEnabled, replay, GlState.apply]

/-! ## A frame with shadows disabled -/

/-- The cascade arrays of the block assembled at the start of a frame are zero-initialised. -/
theorem assemble_per_scene_cascades (L : Linalg) (K : Constants) (time : float)
    (r : PhysicallyBasedRenderer NumEyes) :
    (assemble_per_scene L K time r).cascadesPlane = List.replicate K.NUM_CASCADES float4.zero ∧
    (assemble_per_scene L K time r).cascadesMatrix
      = List.replicate K.NUM_CASCADES float4x4.zero ∧
    (assemble_per_scene L K time r).cascadesNear = List.replicate K.NUM_CASCADES 0 ∧
    (assemble_per_scene L K time r).cascadesFar = List.replicate K.NUM_CASCADES 0 := by
  simp only [assemble_per_scene, forLoop_point_lights]
  exact ⟨rfl, rfl, rfl, rfl⟩

/-- With shadows disabled, a frame makes no call to the shadow collaborator. -/
theorem render_frame_no_shadow_calls (L : Linalg) (C : Collaborators) (K : Constants)
    (time : float) (s : PhysicallyBasedRenderer NumEyes × GlState)
    (h : s.1.shadow.enabled = false) :
    ∀ c ∈ (render_frame L C K time s).2, c.isShadow = false := by
  intro c hc
  simp only [render_frame, render_frame_forward, render_frame_post, Op.andThen, shadow_stage, h,
    List.mem_append] at hc
  rcases hc with (((((hc | hc) | hc) | hc) | hc) | hc) | ((((hc | hc) | hc) | hc) | hc)
  · revert hc
    simp only [Op.seq, Op.andThen, Op.call, Op.nop, glEnable, List.mem_append, List.mem_singleton,
      List.not_mem_nil, or_false]
    intro hc
    rcases hc with rfl | rfl | rfl | rfl | rfl | rfl <;> rfl
  · simp at hc; subst hc; rfl
  · simp at hc
  · simp at hc; rcases hc with rfl | rfl | rfl <;> rfl
  · have := render_views_calls L _ _ c hc
    revert this
    cases c <;> simp [Call.inViewLoop, Call.isShadow]
  · simp at hc; subst hc; rfl
  · simp at hc; subst hc; rfl
  · have := run_post_passes_calls _ _ _ c hc
    revert this
    cases c <;> simp [Call.inPostPass, Call.isShadow]
  · simp at hc; subst hc; rfl
  · simp [glDisable] at hc; subst hc; rfl
  · simp at hc; subst hc; rfl

/-- The per-view loop leaves the shadow collaborator as it is. -/
theorem render_views_shadow (L : Linalg) (l : List (Fin NumEyes))
    (s : PhysicallyBasedRenderer NumEyes × GlState) :
    (Op.seq (l.map (render_view L)) s).1.1.shadow = s.1.shadow := by
  refine (Op.seq_invariant
    (fun st : PhysicallyBasedRenderer NumEyes × GlState => st.1.shadow = s.1.shadow)
    (fun _ => True) _ ?_ s rfl).1
  intro op hop st hst
  obtain ⟨k, _, rfl⟩ := List.mem_map.mp hop
  exact ⟨hst, fun _ _ => trivial⟩

/-- C13: when the shadow collaborator reports `enabled = false`, `render_frame` makes no call
to the shadow collaborator (no `update_cascades`, no `pre_draw` that would direct draws to the
shadow target, no upload of a shadow model matrix, no `post_draw`), leaves the collaborator as
it is, and uploads a per-scene block whose cascade planes, matrices, near and far entries are
zero for every cascade index below `NUM_CASCADES`. -/
theorem render_frame_shadows_disabled (L : Linalg) (C : Collaborators) (K : Constants)
    (time : float) (s : PhysicallyBasedRenderer NumEyes × GlState)
    (h : s.1.shadow.enabled = false) :
    (render_frame L C K time s).2.all (fun c => !c.isShadow) = true ∧
    (render_frame L C K time s).1.1.shadow = s.1.shadow ∧
    (per_scene_uploads (render_frame L C K time s).2).map (fun b => b.cascadesPlane)
      = [List.replicate K.NUM_CASCADES float4.zero] ∧
    (per_scene_uploads (render_frame L C K time s).2).map (fun b => b.cascadesMatrix)
      = [List.replicate K.NUM_CASCADES float4x4.zero] ∧
    (per_scene_uploads (render_frame L C K time s).2).map (fun b => b.cascadesNear)
      = [List.replicate K.NUM_CASCADES 0] ∧
    (per_scene_uploads (render_frame L C K time s).2).map (fun b => b.cascadesFar)
      = [List.replicate K.NUM_CASCADES 0] := by
  have hb : (shadow_stage L C K s.1 (assemble_per_scene L K time s.1)).1.2
      = assemble_per_scene L K time s.1 := by
    simp [shadow_stage, h]
  obtain ⟨h1, h2, h3, h4⟩ := assemble_per_scene_cascades L K time s.1
  refine ⟨?_, ?_, ?_, ?_, ?_, ?_⟩
  · rw [List.all_eq_true]
    intro c hc
    simp [render_frame_no_shadow_calls L C K time s h c hc]
  · have hv := render_views_shadow L (List.finRange NumEyes)
      (({ s.1 with shadow := (shadow_stage L C K s.1 (assemble_per_scene L K time s.1)).1.1 } :
          PhysicallyBasedRenderer NumEyes),
        (Op.seq
          [ glEnable .GL_CULL_FACE,
            glEnable .GL_DEPTH_TEST,
            glEnable .GL_FRAMEBUFFER_SRGB,
            Op.call (.glBindBufferBase .per_scene),
            Op.call (.glBindBufferBase .per_view),
            Op.call (.glBindBufferBase .per_object) ] s.2).1)
    have hs : (shadow_stage L C K s.1 (assemble_per_scene L K time s.1)).1.1 = s.1.shadow := by
      simp [shadow_stage, h]
    exact hv.trans hs
  · rw [per_scene_uploads_render_frame, hb, List.map_singleton, h1]
  · rw [per_scene_uploads_render_frame, hb, List.map_singleton, h2]
  · rw [per_scene_uploads_render_frame, hb, List.map_singleton, h3]
  · rw [per_scene_uploads_render_frame, hb, List.map_singleton, h4]

/-- C13, at a concrete scene: a stereo frame with shadows disabled and one drawable makes no
call to the shadow collaborator. -/
theorem render_frame_shadows_disabled_witness :
    (Example.stereo false [Example.withMaterial 1 ⟨1, 0, 0⟩] []).shadow.enabled = false ∧
    (render_frame Example.linalg Example.collaborators ⟨4, 4⟩ 0
        (Example.stereo false [Example.withMaterial 1 ⟨1, 0, 0⟩] [], Example.flags)).2.all
      (fun c => !c.isShadow) = true ∧
    (per_scene_uploads (render_frame Example.linalg Example.collaborators ⟨4, 4⟩ 0
        (Example.stereo false [Example.withMaterial 1 ⟨1, 0, 0⟩] [], Example.flags)).2).map
      (fun b => b.cascadesNear) = [[0, 0, 0, 0]] :=
  ⟨rfl,
    (render_frame_shadows_disabled Example.linalg Example.collaborators ⟨4, 4⟩ 0
      (Example.stereo false [Example.withMaterial 1 ⟨1, 0, 0⟩] [], Example.flags) rfl).1,
    (render_frame_shadows_disabled Example.linalg Example.collaborators ⟨4, 4⟩ 0
      (Example.stereo false [Example.withMaterial 1 ⟨1, 0, 0⟩] [], Example.flags) rfl).2.2.2.2.1⟩

/-! ## Reading the calls of a loop -/

/-- A reading of call sequences that distributes over concatenation, applied to the calls of
a loop: if from every state that satisfies an invariant the body keeps the invariant and its
calls read as `expected i`, the calls of the loop read as the concatenation of the
`expected i` in loop order. -/
theorem Op.seq_map_reading {ι σ β : Type} (π : List Call → List β) (hnil : π [] = [])
    (happ : ∀ a b, π (a ++ b) = π a ++ π b) (I : σ → Prop) (body : ι → Op σ)
    (expected : ι → List β)
    (h : ∀ i s, I s → I (body i s).1 ∧ π (body i s).2 = expected i)
    (l : List ι) (s : σ) (hs : I s) :
    π (Op.seq (l.map body) s).2 = (l.map expected).flatten := by
  induction l generalizing s with
  | nil => simpa [Op.seq, Op.nop] using hnil
  | cons i rest ih =>
    obtain ⟨h1, h2⟩ := h i s hs
    simp only [List.map_cons, Op.seq, Op.andThen, happ, h2, List.flatten_cons]
    rw [ih _ h1]

/-- The stages of two call sequences in a row. -/
theorem stages_append (a b : List Call) : stages (a ++ b) = stages a ++ stages b := by
  simp [stages]

/-- A call sequence none of whose calls opens a stage has no stage. -/
theorem stages_eq_nil (calls : List Call) (h : ∀ c ∈ calls, c.stage = none) :
    stages calls = [] :=
  List.filterMap_eq_nil_iff.mpr h

/-- The stages of `run_skybox_pass`: the skybox stage if a skybox is set. -/
theorem stages_run_skybox_pass (L : Linalg) (skybox : Option ProceduralSky) (d : CameraData)
    (gl : GlState) :
    stages (run_skybox_pass L skybox d gl).2 = if skybox.isSome then [Stage.Skybox] else [] := by
  cases skybox with
  | none => rfl
  | some sky =>
    cases hdt : gl.isEnabled .GL_DEPTH_TEST <;>
      simp [run_skybox_pass, hdt, Op.seq, Op.andThen, Op.call, Op.nop, glEnable, glDisable,
        stages, Call.stage]

/-- The stages of `run_forward_pass`: the forward pass, once. -/
theorem stages_run_forward_pass (L : Linalg) (renderSet : List Renderable) (d : CameraData)
    (gl : GlState) : stages (run_forward_pass L renderSet d gl).2 = [Stage.ForwardPass] := by
  have hm : ∀ s, stages (Op.seq ((materialTraversal L d renderSet).map (draw_with_material L d)) s).2
      = [] := by
    intro s
    apply stages_eq_nil
    refine Op.seq_calls_forall (fun c => c.stage = none) _ ?_ s
    intro op hop s' c hc
    obtain ⟨x, _, rfl⟩ := List.mem_map.mp hop
    by_cases hmr : x.get_material.isMetallicRoughness = true <;>
      simp [draw_with_material, update_per_object, Op.seq, Op.andThen, Op.call, Op.nop, hmr] at hc <;>
      rcases hc with rfl | rfl | rfl | rfl | rfl <;> rfl
  have hd : ∀ s, stages (Op.seq ((defaultTraversal L d renderSet).map (draw_default L d)) s).2
      = [] := by
    intro s
    apply stages_eq_nil
    refine Op.seq_calls_forall (fun c => c.stage = none) _ ?_ s
    intro op hop s' c hc
    obtain ⟨x, _, rfl⟩ := List.mem_map.mp hop
    simp [draw_default, update_per_object, Op.seq, Op.andThen, Op.call, Op.nop] at hc
    rcases hc with rfl | rfl <;> rfl
  simp only [run_forward_pass, Op.seq, Op.andThen, stages_append, hm, hd]
  simp [stages, Call.stage, glEnable, Op.call, Op.nop]

/-- The stages of one iteration of the per-view loop. -/
theorem stages_render_view (L : Linalg) (eyeIdx : Fin NumEyes)
    (s : PhysicallyBasedRenderer NumEyes × GlState) :
    stages (render_view L eyeIdx s).2
      = [Stage.PerViewUpload, Stage.MultisampleBind]
        ++ (if s.1.skybox.isSome then [Stage.Skybox] else [])
        ++ [Stage.ForwardPass, Stage.Resolve eyeIdx.val] := by
  simp only [render_view, Op.seq, Op.andThen, stages_append, stages_run_skybox_pass,
    stages_run_forward_pass]
  simp [stages, Call.stage, glEnable, glDisable, Op.call, Op.nop]

/-- The stages of `run_post_pass`: the post pass, once. -/
theorem stages_run_post_pass (d : CameraData) (gl : GlState) :
    stages (run_post_pass d gl).2 = [Stage.PostPass d.index] := by
  cases hcf : gl.isEnabled .GL_CULL_FACE <;> cases hdt : gl.isEnabled .GL_DEPTH_TEST <;>
    simp [run_post_pass, run_bloom_pass, hcf, hdt, Op.seq, Op.andThen, Op.call, Op.nop,
      glEnable, glDisable, stages, Call.stage]

/-- The stages of the shadow stage: the shadow pass if shadows are enabled. -/
theorem stages_shadow_stage (L : Linalg) (C : Collaborators) (K : Constants)
    (r : PhysicallyBasedRenderer NumEyes) (b : per_scene) :
    stages (shadow_stage L C K r b).2 = if r.shadow.enabled then [Stage.ShadowPass] else [] := by
  unfold shadow_stage
  split_ifs
  · have hl : stages ((r.renderSet.map (shadow_draw L)).flatten) = [] := by
      apply stages_eq_nil
      intro c hc
      obtain ⟨l, hl, hcl⟩ := List.mem_flatten.mp hc
      obtain ⟨obj, _, rfl⟩ := List.mem_map.mp hl
      unfold shadow_draw at hcl
      split_ifs at hcl
      · simp only [List.mem_cons, List.mem_singleton, List.not_mem_nil, or_false] at hcl
        rcases hcl with rfl | rfl <;> rfl
      · simp at hcl
    simp only [run_shadow_pass, stages_append, hl]
    simp [stages, Call.stage]
  · rfl

/-- The stages of the per-view loop. -/
theorem stages_render_views (L : Linalg) (l : List (Fin NumEyes))
    (s : PhysicallyBasedRenderer NumEyes × GlState) :
    stages (Op.seq (l.map (render_view L)) s).2
      = (l.map (fun i : Fin NumEyes =>
          [Stage.PerViewUpload, Stage.MultisampleBind]
            ++ (if s.1.skybox.isSome then [Stage.Skybox] else [])
            ++ [Stage.ForwardPass, Stage.Resolve i.val])).flatten := by
  refine Op.seq_map_reading stages rfl stages_append
    (fun st : PhysicallyBasedRenderer NumEyes × GlState => st.1.skybox = s.1.skybox)
    (render_view L) _ ?_ l s rfl
  intro i st hst
  refine ⟨(render_view_state L i st).2.2.1.trans hst, ?_⟩
  rw [stages_render_view, hst]

/-- The stages of the post loop. -/
theorem stages_run_post_passes (f : Fin NumEyes → CameraData) (l : List (Fin NumEyes))
    (gl : GlState) :
    stages (Op.seq (l.map (fun eyeIdx => run_post_pass (f eyeIdx))) gl).2
      = l.map (fun i => Stage.PostPass (f i).index) := by
  have h := Op.seq_map_reading stages rfl stages_append (fun _ : GlState => True)
    (fun eyeIdx => run_post_pass (f eyeIdx)) (fun i => [Stage.PostPass (f i).index])
    (fun i st _ => ⟨trivial, stages_run_post_pass (f i) st⟩) l gl trivial
  rw [h]
  clear h
  induction l with
  | nil => rfl
  | cons i rest ih => simp [ih]

/-- C12: for every number of views `NumEyes >= 1`, shadow-enabled flag and skybox-present flag,
the pass stages of one `render_frame` call are exactly: the renderer defaults; the shadow pass
iff shadows are enabled; the per-scene upload; then for each view index in increasing order
the per-view upload, the bind of the multisample target, the skybox iff a skybox is set, the
forward pass and the resolve into the target of that view; then the post pass for each view
index in increasing order, run on the texture named by the camera of that view; then the end
of the frame. No stage occurs at another place. The frame starts with the calls that set the
three defaults and bind the three parameter blocks. -/
theorem render_frame_stages (L : Linalg) (C : Collaborators) (K : Constants) (time : float)
    (s : PhysicallyBasedRenderer NumEyes × GlState) :
    stages (render_frame L C K time s).2
      = [Stage.BeginFrame]
        ++ (if s.1.shadow.enabled then [Stage.ShadowPass] else [])
        ++ [Stage.PerSceneUpload]
        ++ ((List.finRange NumEyes).map (fun i : Fin NumEyes =>
            [Stage.PerViewUpload, Stage.MultisampleBind]
              ++ (if s.1.skybox.isSome then [Stage.Skybox] else [])
              ++ [Stage.ForwardPass, Stage.Resolve i.val])).flatten
        ++ (List.finRange NumEyes).map (fun i => Stage.PostPass (s.1.cameras i).index)
        ++ [Stage.EndFrame] ∧
    (List.finRange NumEyes).map Fin.val = List.range NumEyes ∧
    [Call.glEnable .GL_CULL_FACE, Call.glEnable .GL_DEPTH_TEST,
        Call.glEnable .GL_FRAMEBUFFER_SRGB, Call.glBindBufferBase .per_scene,
        Call.glBindBufferBase .per_view, Call.glBindBufferBase .per_object]
      <+: (render_frame L C K time s).2 := by
  refine ⟨?_, List.map_coe_finRange NumEyes, ?_⟩
  · have hidx : ∀ i : Fin NumEyes,
        ((render_frame_forward L C K time s).1.1.cameras i).index = (s.1.cameras i).index :=
      fun i => (render_views_cameras L (List.finRange NumEyes) _ i).1
    have hpost : stages (render_frame_post (render_frame_forward L C K time s).1).2
        = (List.finRange NumEyes).map (fun i => Stage.PostPass (s.1.cameras i).index)
          ++ [Stage.EndFrame] := by
      simp only [render_frame_post, stages_append, stages_run_post_passes, hidx]
      simp [stages, Call.stage, glDisable]
    have hfwd : stages (render_frame_forward L C K time s).2
        = [Stage.BeginFrame]
          ++ (if s.1.shadow.enabled then [Stage.ShadowPass] else [])
          ++ [Stage.PerSceneUpload]
          ++ ((List.finRange NumEyes).map (fun i : Fin NumEyes =>
              [Stage.PerViewUpload, Stage.MultisampleBind]
                ++ (if s.1.skybox.isSome then [Stage.Skybox] else [])
                ++ [Stage.ForwardPass, Stage.Resolve i.val])).flatten := by
      simp only [render_frame_forward, stages_append, stages_shadow_stage, stages_render_views]
      simp [stages, Call.stage, glEnable, Op.seq, Op.andThen, Op.call, Op.nop]
    show stages ((render_frame_forward L C K time s).2
      ++ (render_frame_post (render_frame_forward L C K time s).1).2) = _
    rw [stages_append, hfwd, hpost]
    simp only [List.append_assoc]
  · show _ <+: (render_frame_forward L C K time s).2
      ++ (render_frame_post (render_frame_forward L C K time s).1).2
    simp only [render_frame_forward, Op.seq, Op.andThen, Op.call, Op.nop, glEnable,
      List.append_assoc, List.cons_append, List.nil_append, List.append_nil]
    exact List.prefix_append _ _

/-! ## The per-object uploads and draws of a frame -/

/-- The object calls of two call sequences in a row. -/
theorem objectCalls_append (a b : List Call) :
    objectCalls (a ++ b) = objectCalls a ++ objectCalls b := by
  simp [objectCalls]

/-- A call sequence without per-object upload and without draw has no object call. -/
theorem objectCalls_eq_nil (calls : List Call) (h : ∀ c ∈ calls, c.isObjectCall = false) :
    objectCalls calls = [] := by
  rw [objectCalls, List.filter_eq_nil_iff]
  intro c hc
  simp [h c hc]

/-- The draw order of the forward pass depends on the camera through its eye position
only. -/
theorem forwardOrder_eye (L : Linalg) (d d' : CameraData) (renderSet : List Renderable)
    (h : d.pose.position = d'.pose.position) :
    forwardOrder L d renderSet = forwardOrder L d' renderSet := by
  simp only [forwardOrder, materialTraversal, defaultTraversal,
    materialSortFunc_eye L L d d' rfl h,
    distanceSortFunc_eye L L d d' rfl h]

/-- The object calls of `run_forward_pass`: for each drawable in draw order, the upload of
its per-object block followed by its draw. -/
theorem objectCalls_run_forward_pass (L : Linalg) (renderSet : List Renderable)
    (d : CameraData) (gl : GlState) :
    objectCalls (run_forward_pass L renderSet d gl).2
      = ((forwardOrder L d renderSet).map (fun obj =>
          [Call.set_per_object (per_object_of L d obj), Call.draw obj])).flatten := by
  have hm : ∀ s, objectCalls
      (Op.seq ((materialTraversal L d renderSet).map (draw_with_material L d)) s).2
      = ((materialTraversal L d renderSet).map (fun x : MaterialRenderable =>
          [Call.set_per_object (per_object_of L d x.val), Call.draw x.val])).flatten := by
    intro s
    refine Op.seq_map_reading objectCalls rfl objectCalls_append (fun _ : GlState => True)
      _ _ ?_ _ s trivial
    intro x st _
    refine ⟨trivial, ?_⟩
    by_cases hmr : x.get_material.isMetallicRoughness = true <;>
      simp [draw_with_material, update_per_object, Op.seq, Op.andThen, Op.call, Op.nop, hmr,
        objectCalls, Call.isObjectCall]
  have hd : ∀ s, objectCalls
      (Op.seq ((defaultTraversal L d renderSet).map (draw_default L d)) s).2
      = ((defaultTraversal L d renderSet).map (fun x : Renderable =>
          [Call.set_per_object (per_object_of L d x), Call.draw x])).flatten := by
    intro s
    refine Op.seq_map_reading objectCalls rfl objectCalls_append (fun _ : GlState => True)
      _ _ ?_ _ s trivial
    intro x st _
    refine ⟨trivial, ?_⟩
    simp [draw_default, update_per_object, Op.seq, Op.andThen, Op.call, Op.nop,
      objectCalls, Call.isObjectCall]
  simp only [run_forward_pass, Op.seq, Op.andThen, objectCalls_append, hm, hd]
  simp [objectCalls, Call.isObjectCall, glEnable, Op.call, Op.nop, forwardOrder,
    List.map_append, List.flatten_append, List.map_map, Function.comp_def]

/-- The object calls of `run_skybox_pass`: none. -/
theorem objectCalls_run_skybox_pass (L : Linalg) (skybox : Option ProceduralSky)
    (d : CameraData) (gl : GlState) : objectCalls (run_skybox_pass L skybox d gl).2 = [] := by
  cases skybox with
  | none => rfl
  | some sky =>
    cases hdt : gl.isEnabled .GL_DEPTH_TEST <;>
      simp [run_skybox_pass, hdt, Op.seq, Op.andThen, Op.call, Op.nop, glEnable, glDisable,
        objectCalls, Call.isObjectCall]

/-- The object calls of one iteration of the per-view loop: those of its forward pass, run
with the camera of the view whose view matrix has just been recomputed from its pose. -/
theorem objectCalls_render_view (L : Linalg) (eyeIdx : Fin NumEyes)
    (s : PhysicallyBasedRenderer NumEyes × GlState) :
    objectCalls (render_view L eyeIdx s).2
      = ((forwardOrder L (s.1.cameras eyeIdx) s.1.renderSet).map (fun obj =>
          [Call.set_per_object
              { modelMatrix := L.mul (L.matrix obj.pose) (L.make_scaling_matrix obj.scale)
                modelMatrixIT := L.inverse (L.transpose
                  (L.mul (L.matrix obj.pose) (L.make_scaling_matrix obj.scale)))
                modelViewMatrix := L.mul (L.matrix (L.poseInverse (s.1.cameras eyeIdx).pose))
                  (L.mul (L.matrix obj.pose) (L.make_scaling_matrix obj.scale))
                receiveShadow := if obj.receiveShadow then 1 else 0 },
            Call.draw obj])).flatten := by
  simp only [render_view, Op.seq, Op.andThen, objectCalls_append, objectCalls_run_skybox_pass,
    objectCalls_run_forward_pass, Function.update_same]
  simp only [objectCalls, Call.isObjectCall, glEnable, glDisable, Op.call, Op.nop, per_object_of,
    per_view_of, List.filter_cons, List.filter_nil, Bool.false_eq_true, if_false,
    List.nil_append, List.append_nil]
  congr 2

/-- The object calls of the per-view loop, in terms of the renderer at the start of the
loop. -/
theorem objectCalls_render_views (L : Linalg) (l : List (Fin NumEyes))
    (s : PhysicallyBasedRenderer NumEyes × GlState) :
    objectCalls (Op.seq (l.map (render_view L)) s).2
      = (l.map (fun i : Fin NumEyes =>
          ((forwardOrder L (s.1.cameras i) s.1.renderSet).map (fun obj =>
            [Call.set_per_object
                { modelMatrix := L.mul (L.matrix obj.pose) (L.make_scaling_matrix obj.scale)
                  modelMatrixIT := L.inverse (L.transpose
                    (L.mul (L.matrix obj.pose) (L.make_scaling_matrix obj.scale)))
                  modelViewMatrix := L.mul (L.matrix (L.poseInverse (s.1.cameras i).pose))
                    (L.mul (L.matrix obj.pose) (L.make_scaling_matrix obj.scale))
                  receiveShadow := if obj.receiveShadow then 1 else 0 },
              Call.draw obj])).flatten)).flatten := by
  refine Op.seq_map_reading objectCalls rfl objectCalls_append
    (fun st : PhysicallyBasedRenderer NumEyes × GlState =>
      st.1.renderSet = s.1.renderSet ∧ ∀ i, (st.1.cameras i).pose = (s.1.cameras i).pose)
    (render_view L) _ ?_ l s ⟨rfl, fun _ => rfl⟩
  intro i st hst
  refine ⟨⟨(render_view_state L i st).1.trans hst.1,
    fun k => ((render_view_state L i st).2.2.2 k).2.1.trans (hst.2 k)⟩, ?_⟩
  rw [objectCalls_render_view, hst.1, hst.2 i,
    forwardOrder_eye L (st.1.cameras i) (s.1.cameras i) _ (by rw [hst.2 i])]

/-- The object calls of the shadow stage: the draws of the shadow casters if shadows are
enabled. -/
theorem objectCalls_shadow_stage (L : Linalg) (C : Collaborators) (K : Constants)
    (r : PhysicallyBasedRenderer NumEyes) (b : per_scene) :
    objectCalls (shadow_stage L C K r b).2
      = if r.shadow.enabled then (r.renderSet.filter (fun obj => obj.castsShadow)).map Call.draw
        else [] := by
  unfold shadow_stage
  split_ifs
  · have hl : objectCalls ((r.renderSet.map (shadow_draw L)).flatten)
        = (r.renderSet.filter (fun obj => obj.castsShadow)).map Call.draw := by
      induction r.renderSet with
      | nil => rfl
      | cons obj rest ih =>
        rw [List.map_cons, List.flatten_cons, objectCalls_append, ih]
        by_cases h : obj.castsShadow = true
        · simp [shadow_draw, h, List.filter_cons, objectCalls, Call.isObjectCall]
        · simp [shadow_draw, h, List.filter_cons, objectCalls]
    simp only [run_shadow_pass, objectCalls_append, hl]
    simp [objectCalls, Call.isObjectCall]
  · rfl

/-- The object calls of the post loop: none. -/
theorem objectCalls_run_post_passes (f : Fin NumEyes → CameraData) (l : List (Fin NumEyes))
    (gl : GlState) :
    objectCalls (Op.seq (l.map (fun eyeIdx => run_post_pass (f eyeIdx))) gl).2 = [] := by
  apply objectCalls_eq_nil
  intro c hc
  have := run_post_passes_calls f l gl c hc
  revert this
  cases c <;> simp [Call.inPostPass, Call.isObjectCall]

/-- The per-object uploads and the draws of a frame, in order: the draws of the shadow
casters if shadows are enabled, then for each view in increasing order and each drawable in
the draw order of the forward pass of that view, the upload of its per-object block followed
by its draw. -/
theorem objectCalls_render_frame (L : Linalg) (C : Collaborators) (K : Constants) (time : float)
    (s : PhysicallyBasedRenderer NumEyes × GlState) :
    objectCalls (render_frame L C K time s).2
      = (if s.1.shadow.enabled then
            (s.1.renderSet.filter (fun obj => obj.castsShadow)).map Call.draw
          else [])
        ++ ((List.finRange NumEyes).map (fun i : Fin NumEyes =>
          ((forwardOrder L (s.1.cameras i) s.1.renderSet).map (fun obj =>
            [Call.set_per_object
                { modelMatrix := L.mul (L.matrix obj.pose) (L.make_scaling_matrix obj.scale)
                  modelMatrixIT := L.inverse (L.transpose
                    (L.mul (L.matrix obj.pose) (L.make_scaling_matrix obj.scale)))
                  modelViewMatrix := L.mul (L.matrix (L.poseInverse (s.1.cameras i).pose))
                    (L.mul (L.matrix obj.pose) (L.make_scaling_matrix obj.scale))
                  receiveShadow := if obj.receiveShadow then 1 else 0 },
              Call.draw obj])).flatten)).flatten := by
  simp only [render_frame, render_frame_forward, render_frame_post, Op.andThen,
    objectCalls_append, objectCalls_shadow_stage, objectCalls_render_views,
    objectCalls_run_post_passes]
  simp [objectCalls, Call.isObjectCall, glEnable, glDisable, Op.seq, Op.andThen, Op.call, Op.nop]

/-- C15: in one `render_frame`, the per-object uploads and the draws are, after the draws of
the shadow pass, for each view `i` in increasing order and each drawable in the draw order of
the forward pass of view `i`: the upload of a per-object block followed by the draw of the
drawable. That block has model matrix = pose matrix times scale matrix of the drawable,
inverse-transpose of the model matrix, model-view matrix = `V_i` times model matrix, where
`V_i` is the matrix of the inverse of the current pose of view `i`, and receive-shadow flag 1
or 0 as the flag of the drawable. The sequence is the same when the `viewMatrix` and
`viewProjMatrix` fields of the cameras at entry are replaced by any other values. The draw
order used is the order of the draws of `run_forward_pass`. -/
theorem render_frame_per_object_blocks (L : Linalg) (C : Collaborators) (K : Constants)
    (time : float) (s : PhysicallyBasedRenderer NumEyes × GlState)
    (stale : Fin NumEyes → float4x4 × float4x4) :
    objectCalls (render_frame L C K time s).2
      = (if s.1.shadow.enabled then
            (s.1.renderSet.filter (fun obj => obj.castsShadow)).map Call.draw
          else [])
        ++ ((List.finRange NumEyes).map (fun i : Fin NumEyes =>
          ((forwardOrder L (s.1.cameras i) s.1.renderSet).map (fun obj =>
            [Call.set_per_object
                { modelMatrix := L.mul (L.matrix obj.pose) (L.make_scaling_matrix obj.scale)
                  modelMatrixIT := L.inverse (L.transpose
                    (L.mul (L.matrix obj.pose) (L.make_scaling_matrix obj.scale)))
                  modelViewMatrix := L.mul (L.matrix (L.poseInverse (s.1.cameras i).pose))
                    (L.mul (L.matrix obj.pose) (L.make_scaling_matrix obj.scale))
                  receiveShadow := if obj.receiveShadow then 1 else 0 },
              Call.draw obj])).flatten)).flatten ∧
    objectCalls (render_frame L C K time
        (({ s.1 with cameras := fun i =>
            { s.1.cameras i with viewMatrix := (stale i).1, viewProjMatrix := (stale i).2 } } :
          PhysicallyBasedRenderer NumEyes), s.2)).2
      = objectCalls (render_frame L C K time s).2 ∧
    ∀ (i : Fin NumEyes) (gl : GlState),
      drawn (run_forward_pass L s.1.renderSet (s.1.cameras i) gl).2
        = forwardOrder L (s.1.cameras i) s.1.renderSet := by
  refine ⟨objectCalls_render_frame L C K time s, ?_, ?_⟩
  · rw [objectCalls_render_frame, objectCalls_render_frame]
    rfl
  · intro i gl
    exact drawn_run_forward_pass L _ _ gl

end FwdRenderer
